import Mathlib

/-!
Verification development for the RAUI core reconciliation and portal
teleportation engine (crate `raui-core`, file `src/application.rs`, together
with the widget data model under `src/widget/`).

Shallow embedding conventions used throughout this file:

* Rust `HashMap<WidgetId, V>` stores are modelled as association lists
  `List (WidgetId × V)`.  `HashMap::insert` replaces the first entry with the
  key (or appends), `remove` drops entries with the key, and iteration order
  is list order (the Rust iteration order is unspecified; the source only
  relies on "some first entry", which the spec itself notes).
* Opaque payloads are modelled by simple concrete types: message payloads and
  animation payloads as `Nat`, property bags (`Props`) as association lists
  from `String` to `Nat` (the core treats property bags as opaque, copyable,
  mergeable values).
* Widget processors in the source are plain function pointers
  (`type FnWidget = fn(WidgetContext) -> WidgetNode`).  Components reference
  their processor here by an index into an environment `Env` mapping indices
  to pure functions from the widget context to the produced node together
  with all emissions the processor and, separately, its registered life-cycle
  callbacks can make through the context's channels (state updates, animation
  updates, messages, signals).  This defunctionalisation avoids a negative
  occurrence of the node type inside itself and is otherwise faithful: the
  Rust processors are `fn` pointers, hence pure functions of the context.
* Recursive tree walks take an explicit fuel argument (recursion-depth
  budget) and are structurally recursive on it, so that all definitions are
  executable by kernel reduction.  The Rust recursion over composite
  expansions is genuinely unbounded (a composite returning a composite
  forever diverges); with fuel at least the actual recursion depth the
  definitions agree with the source, and fuel exhaustion returns the input
  unchanged.  For the portal injector the fuel is not an artifact: every
  recursive call in `inject_portals` happens directly after one holding-list
  removal, so the initial holding-list length is a sufficient budget, and
  that is the fuel `teleport_portals` passes.
* The pass additionally records ghost instrumentation (lists of invoked
  mount/change/unmount callbacks, drained message batches, the set of used
  identities, the pre-conversion walk result).  These logs are write-only:
  no modelled source behaviour reads them.
* Modules of the crate referenced by `application.rs` but absent from this
  snapshot (`animator.rs`, the frozen unit definitions for area/portal/
  content/flex/grid boxes, `props.rs`) are modelled from the spec where their
  behaviour matters; each such definition carries a doc comment saying so.
-/

/-! ## Opaque payload types -/

/-- Opaque message payload (`Message = Box<dyn MessageData>` in the source);
the core never inspects it. -/
abbrev Msg := Nat

/-- Opaque animation payload (the `Animation` description handed to
`AnimatorStates::new` / `change`); the core never inspects it. -/
abbrev AnimData := Nat

/-- Property bag.  Modelled from the spec: the core treats property payloads
as opaque, copyable, mergeable values; we model them as association lists
from string keys to opaque values. -/
abbrev Props := List (String × Nat)

/-- The default (empty) property bag, `Props::default()`. -/
def defaultProps : Props := []

/-- Merge of property bags, `master.merge(child)`: modelled from the spec;
keys of the child override keys of the parent, keys only present in the
parent remain visible. -/
def Props.mergeWith (master child : Props) : Props :=
  child ++ master.filter (fun kv => (child.lookup kv.1).isNone)

/-! ## Widget identity (`WidgetId`, `src/widget/mod.rs`) -/

/-- Stable widget identity: a type tag plus the accumulated path of keys.
The source stores the composed string `type_name ++ ":" ++ "/k1/k2..."`
and compares identities by that full composed value; we keep the two
components (from which the composed string is a pure function, see
`WidgetId.composed`) and compare them componentwise. -/
structure WidgetId where
  type_name : String
  path : List String
deriving DecidableEq, Repr

/-- The composed string representation built by `WidgetId::new`. -/
def WidgetId.composed (id : WidgetId) : String :=
  id.type_name ++ ":" ++ id.path.foldl (fun acc part => acc ++ "/" ++ part) ""

/-- `WidgetId::default()`: the empty identity (empty type tag, empty path). -/
def WidgetId.defaultId : WidgetId := ⟨"", []⟩

/-! ## Layout metadata for container items

The full layout structures live in the unit modules absent from this
snapshot; the teleporter and reconciler treat them as opaque data that is
carried along or replaced by `Default::default()`.  Each is modelled as an
opaque value with a distinguished default. -/

/-- Opaque `ContentBoxItemLayout` value; `0` plays `Default::default()`. -/
structure ContentItemLayout where
  raw : Nat
deriving DecidableEq, Repr

/-- `ContentBoxItemLayout::default()`. -/
def ContentItemLayout.dflt : ContentItemLayout := ⟨0⟩

/-- Opaque `FlexBoxItemLayout` value; `0` plays `Default::default()`. -/
structure FlexItemLayout where
  raw : Nat
deriving DecidableEq, Repr

/-- `FlexBoxItemLayout::default()`. -/
def FlexItemLayout.dflt : FlexItemLayout := ⟨0⟩

/-- Opaque `GridBoxItemLayout` value; `0` plays `Default::default()`. -/
structure GridItemLayout where
  raw : Nat
deriving DecidableEq, Repr

/-- `GridBoxItemLayout::default()`. -/
def GridItemLayout.dflt : GridItemLayout := ⟨0⟩

/-! ## Frozen primitive tree (`WidgetUnit`)

The variants are the ones `application.rs` matches on (`None`, `AreaBox`,
`PortalBox`, `ContentBox`, `FlexBox`, `GridBox`, `SizeBox`, `ImageBox`,
`TextBox`).  Scalar fields irrelevant to identity, structure and
teleportation (sizes, margins, transforms, materials, ...) are omitted;
child slots, item lists, identities and the portal owner are kept.
The `PortalBox` struct itself is absent from this snapshot; its fields
(`id`, `owner`, `slot`) are those destructured and rebuilt by
`application.rs`, and its `Default` (used by the `std::mem::take` in
`consume_portals`) is modelled as default identity, default owner and an
empty bare slot. -/

mutual

inductive WidgetUnit where
  | wnone
  | contentBox (id : WidgetId) (items : List ContentBoxItem)
  | flexBox (id : WidgetId) (items : List FlexBoxItem)
  | gridBox (id : WidgetId) (items : List GridBoxItem)
  | sizeBox (id : WidgetId) (slot : WidgetUnit)
  | areaBox (id : WidgetId) (slot : WidgetUnit)
  | imageBox (id : WidgetId)
  | textBox (id : WidgetId) (text : String)
  | portalBox (id : WidgetId) (owner : WidgetId) (slot : PortalBoxSlot)
deriving Repr

inductive ContentBoxItem where
  | mk (slot : WidgetUnit) (layout : ContentItemLayout)
deriving Repr

inductive FlexBoxItem where
  | mk (slot : WidgetUnit) (layout : FlexItemLayout)
deriving Repr

inductive GridBoxItem where
  | mk (slot : WidgetUnit) (layout : GridItemLayout)
deriving Repr

inductive PortalBoxSlot where
  | slot (unit : WidgetUnit)
  | contentItem (item : ContentBoxItem)
  | flexItem (item : FlexBoxItem)
  | gridItem (item : GridBoxItem)
deriving Repr

end

/-- Slot of a content-box item. -/
def ContentBoxItem.slot : ContentBoxItem → WidgetUnit
  | .mk s _ => s

/-- Layout of a content-box item. -/
def ContentBoxItem.layout : ContentBoxItem → ContentItemLayout
  | .mk _ l => l

/-- Slot of a flex-box item. -/
def FlexBoxItem.slot : FlexBoxItem → WidgetUnit
  | .mk s _ => s

/-- Layout of a flex-box item. -/
def FlexBoxItem.layout : FlexBoxItem → FlexItemLayout
  | .mk _ l => l

/-- Slot of a grid-box item. -/
def GridBoxItem.slot : GridBoxItem → WidgetUnit
  | .mk s _ => s

/-- Layout of a grid-box item. -/
def GridBoxItem.layout : GridBoxItem → GridItemLayout
  | .mk _ l => l

/-- The unit held inside a portal slot: the match
`PortalBoxSlot::Slot(slot) => slot, ...Item(item) => item.slot` that
`estimate_portals`, `consume_portals` and the area/size graft arms of
`inject_portals` all perform. -/
def portalSlotUnit : PortalBoxSlot → WidgetUnit
  | .slot u => u
  | .contentItem i => i.slot
  | .flexItem i => i.slot
  | .gridItem i => i.slot

/-- Rebuild a portal slot around a new inner unit, keeping the wrapper kind
and layout: this is the effect on `slot` of `consume_portals` recursing into
the slot's inner unit through a mutable borrow. -/
def portalSlotReplace : PortalBoxSlot → WidgetUnit → PortalBoxSlot
  | .slot _, u => .slot u
  | .contentItem i, u => .contentItem (.mk u i.layout)
  | .flexItem i, u => .flexItem (.mk u i.layout)
  | .gridItem i, u => .gridItem (.mk u i.layout)

/-- The default `PortalBox` left in place by `std::mem::take(b)` in
`consume_portals`: the portal node stays in the tree with all fields reset
to their defaults. -/
def portalHusk : WidgetUnit :=
  .portalBox WidgetId.defaultId WidgetId.defaultId (.slot .wnone)

/-- `WidgetUnit::as_data` restricted to the identity: `None` has no data,
every other variant exposes its `id`.  (The frozen unit module of this
snapshot predates the area/portal variants; that they expose their identity
is forced by the `inject_portals` arms that graft onto them or skip them
after an identity match.) -/
def WidgetUnit.asDataId : WidgetUnit → Option WidgetId
  | .wnone => none
  | .contentBox id _ => some id
  | .flexBox id _ => some id
  | .gridBox id _ => some id
  | .sizeBox id _ => some id
  | .areaBox id _ => some id
  | .imageBox id => some id
  | .textBox id _ => some id
  | .portalBox id _ _ => some id

/-! ## Portal teleporter (`Application::teleport_portals` and helpers) -/

/-- `Application::estimate_portals`: counts portal nodes in the tree
(recursing through each portal's own slot). -/
def estimatePortals : Nat → WidgetUnit → Nat
  | 0, _ => 0
  | fuel + 1, u =>
    match u with
    | .wnone | .imageBox _ | .textBox _ _ => 0
    | .areaBox _ s => estimatePortals fuel s
    | .portalBox _ _ slot => estimatePortals fuel (portalSlotUnit slot) + 1
    | .contentBox _ items =>
      items.foldl (fun acc i => acc + estimatePortals fuel i.slot) 0
    | .flexBox _ items =>
      items.foldl (fun acc i => acc + estimatePortals fuel i.slot) 0
    | .gridBox _ items =>
      items.foldl (fun acc i => acc + estimatePortals fuel i.slot) 0
    | .sizeBox _ s => estimatePortals fuel s

/-- `Application::consume_portals`: depth-first walk that, at each portal
node, first recurses into the portal's own slot (so nested portals are
extracted bottom-up), then appends the `(owner, slot)` pair to the bucket,
leaving a default portal husk (`std::mem::take`) at the portal's position. -/
def consumePortals :
    Nat → WidgetUnit → List (WidgetId × PortalBoxSlot) →
    WidgetUnit × List (WidgetId × PortalBoxSlot)
  | 0, u, bucket => (u, bucket)
  | fuel + 1, u, bucket =>
    match u with
    | .wnone | .imageBox _ | .textBox _ _ => (u, bucket)
    | .areaBox id s =>
      let r := consumePortals fuel s bucket
      (.areaBox id r.1, r.2)
    | .sizeBox id s =>
      let r := consumePortals fuel s bucket
      (.sizeBox id r.1, r.2)
    | .portalBox _ owner slot =>
      let r := consumePortals fuel (portalSlotUnit slot) bucket
      (portalHusk, r.2 ++ [(owner, portalSlotReplace slot r.1)])
    | .contentBox id items =>
      let r := items.foldl
        (fun (acc : List ContentBoxItem × List (WidgetId × PortalBoxSlot)) i =>
          let r := consumePortals fuel i.slot acc.2
          (acc.1 ++ [.mk r.1 i.layout], r.2))
        ([], bucket)
      (.contentBox id r.1, r.2)
    | .flexBox id items =>
      let r := items.foldl
        (fun (acc : List FlexBoxItem × List (WidgetId × PortalBoxSlot)) i =>
          let r := consumePortals fuel i.slot acc.2
          (acc.1 ++ [.mk r.1 i.layout], r.2))
        ([], bucket)
      (.flexBox id r.1, r.2)
    | .gridBox id items =>
      let r := items.foldl
        (fun (acc : List GridBoxItem × List (WidgetId × PortalBoxSlot)) i =>
          let r := consumePortals fuel i.slot acc.2
          (acc.1 ++ [.mk r.1 i.layout], r.2))
        ([], bucket)
      (.gridBox id r.1, r.2)

/-- Conversion of a grafted payload into a content-box item
(the `b.items.push(match slot ...)` of the `ContentBox` arm of
`inject_portals`): item wrappers of the wrong kind are unwrapped and the
layout metadata defaulted. -/
def toContentItem : PortalBoxSlot → ContentBoxItem
  | .slot u => .mk u ContentItemLayout.dflt
  | .contentItem i => i
  | .flexItem i => .mk i.slot ContentItemLayout.dflt
  | .gridItem i => .mk i.slot ContentItemLayout.dflt

/-- Conversion of a grafted payload into a flex-box item. -/
def toFlexItem : PortalBoxSlot → FlexBoxItem
  | .slot u => .mk u FlexItemLayout.dflt
  | .contentItem i => .mk i.slot FlexItemLayout.dflt
  | .flexItem i => i
  | .gridItem i => .mk i.slot FlexItemLayout.dflt

/-- Conversion of a grafted payload into a grid-box item. -/
def toGridItem : PortalBoxSlot → GridBoxItem
  | .slot u => .mk u GridItemLayout.dflt
  | .contentItem i => .mk i.slot GridItemLayout.dflt
  | .flexItem i => .mk i.slot GridItemLayout.dflt
  | .gridItem i => i

/-- `portals.iter().position(|(id, _)| data.id() == id)`: index of the first
holding-list entry owned by `id`. -/
def findOwnerPos (id : WidgetId) : List (WidgetId × PortalBoxSlot) → Option Nat
  | [] => none
  | (owner, _) :: rest =>
    if id = owner then some 0
    else (findOwnerPos id rest).map (· + 1)

/-- `Vec::swap_remove(i)`: replace position `i` with the last element and
pop the last element (constant-time removal that does not preserve order). -/
def swapRemove {α : Type} (l : List α) (i : Nat) : List α :=
  match l.getLast? with
  | none => []
  | some last => (l.set i last).dropLast

/-- Result of `inject_portals` on one subtree: the rewritten subtree, the
remaining holding list, and the boolean the Rust function returns (`false`
exactly when the holding list has been exhausted, used to short-circuit the
remaining walk). -/
structure InjectRes where
  unit : WidgetUnit
  portals : List (WidgetId × PortalBoxSlot)
  ok : Bool
deriving Repr

/-- The `for item in &mut b.items { if !Self::inject_portals(&mut item.slot,
portals) { return false; } }` loop shared by the content/flex/grid graft
arms, generic in the item type.  On a `false` result the loop stops and the
remaining items are left untouched. -/
def injectSeq {α : Type} (getSlot : α → WidgetUnit) (setSlot : α → WidgetUnit → α)
    (f : WidgetUnit → List (WidgetId × PortalBoxSlot) → InjectRes) :
    List α → List (WidgetId × PortalBoxSlot) →
    List α × List (WidgetId × PortalBoxSlot) × Bool
  | [], portals => ([], portals, true)
  | i :: rest, portals =>
    let r := f (getSlot i) portals
    if r.ok then
      let rr := injectSeq getSlot setSlot f rest r.portals
      (setSlot i r.unit :: rr.1, rr.2)
    else
      (setSlot i r.unit :: rest, r.portals, false)

/-- `Application::inject_portals`.  At the current node: if the holding list
is empty, return `false`; otherwise repeatedly look for a holding-list entry
owned by this node's identity and, while one is found, remove it
(`swap_remove`) and graft its payload according to the node's container kind
(single-slot containers replace their slot, multi-slot containers append an
item, slotless kinds drop the payload), recursing into the node's children
after each graft and then re-checking the same node.  A node at which no
entry is found is left unchanged — in particular its children are not
visited.  Every recursive call follows one removal, so the initial
holding-list length (the fuel `teleport_portals` passes) bounds the
recursion depth; the fuel-exhaustion arm is unreachable from
`teleportPortals`. -/
def injectPortals :
    Nat → WidgetUnit → List (WidgetId × PortalBoxSlot) → InjectRes
  | 0, unit, portals =>
    if portals.isEmpty then ⟨unit, portals, false⟩ else ⟨unit, portals, true⟩
  | fuel + 1, unit, portals =>
    if portals.isEmpty then ⟨unit, portals, false⟩
    else
      match unit.asDataId with
      | none => ⟨unit, portals, true⟩
      | some uid =>
        match findOwnerPos uid portals with
        | none => ⟨unit, portals, true⟩
        | some idx =>
          let pslot := ((portals.get? idx).getD (WidgetId.defaultId, .slot .wnone)).2
          let portals1 := swapRemove portals idx
          match unit with
          | .wnone | .portalBox _ _ _ | .imageBox _ | .textBox _ _ =>
            injectPortals fuel unit portals1
          | .areaBox id _ =>
            let r := injectPortals fuel (portalSlotUnit pslot) portals1
            if r.ok then injectPortals fuel (.areaBox id r.unit) r.portals
            else ⟨.areaBox id r.unit, r.portals, false⟩
          | .sizeBox id _ =>
            let r := injectPortals fuel (portalSlotUnit pslot) portals1
            if r.ok then injectPortals fuel (.sizeBox id r.unit) r.portals
            else ⟨.sizeBox id r.unit, r.portals, false⟩
          | .contentBox id items =>
            let items1 := items ++ [toContentItem pslot]
            let rr := injectSeq ContentBoxItem.slot
              (fun i u => .mk u i.layout) (injectPortals fuel) items1 portals1
            if rr.2.2 then injectPortals fuel (.contentBox id rr.1) rr.2.1
            else ⟨.contentBox id rr.1, rr.2.1, false⟩
          | .flexBox id items =>
            let items1 := items ++ [toFlexItem pslot]
            let rr := injectSeq FlexBoxItem.slot
              (fun i u => .mk u i.layout) (injectPortals fuel) items1 portals1
            if rr.2.2 then injectPortals fuel (.flexBox id rr.1) rr.2.1
            else ⟨.flexBox id rr.1, rr.2.1, false⟩
          | .gridBox id items =>
            let items1 := items ++ [toGridItem pslot]
            let rr := injectSeq GridBoxItem.slot
              (fun i u => .mk u i.layout) (injectPortals fuel) items1 portals1
            if rr.2.2 then injectPortals fuel (.gridBox id rr.1) rr.2.1
            else ⟨.gridBox id rr.1, rr.2.1, false⟩

/-- `Application::teleport_portals`: if the tree contains no portals return
it unchanged, otherwise extract all portals into a holding list and inject
them into the stripped tree.  The `fuel` bounds the depth of the tree walks
(`estimate`/`consume`); the injector receives the holding-list length, which
is a sufficient budget for it (see `injectPortals`). -/
def teleportPortals (fuel : Nat) (root : WidgetUnit) : WidgetUnit :=
  if estimatePortals fuel root = 0 then root
  else
    let r := consumePortals fuel root []
    (injectPortals r.2.length r.1 r.2).unit

/-- Does a frozen tree contain a portal node anywhere (verification
helper used to state the portal claims)? -/
def containsPortalUnit : Nat → WidgetUnit → Bool
  | 0, _ => false
  | fuel + 1, u =>
    match u with
    | .wnone | .imageBox _ | .textBox _ _ => false
    | .areaBox _ s => containsPortalUnit fuel s
    | .sizeBox _ s => containsPortalUnit fuel s
    | .portalBox _ _ _ => true
    | .contentBox _ items => items.any (fun i => containsPortalUnit fuel i.slot)
    | .flexBox _ items => items.any (fun i => containsPortalUnit fuel i.slot)
    | .gridBox _ items => items.any (fun i => containsPortalUnit fuel i.slot)

/-- Items of the first content box with the given identity found in a
depth-first walk (verification helper used to state the portal claims). -/
def contentItemsOf : Nat → WidgetUnit → WidgetId → Option (List ContentBoxItem)
  | 0, _, _ => none
  | fuel + 1, u, id =>
    match u with
    | .wnone | .imageBox _ | .textBox _ _ => none
    | .contentBox id' items =>
      if id' = id then some items
      else items.foldl (fun acc i => acc <|> contentItemsOf fuel i.slot id) none
    | .flexBox _ items =>
      items.foldl (fun acc i => acc <|> contentItemsOf fuel i.slot id) none
    | .gridBox _ items =>
      items.foldl (fun acc i => acc <|> contentItemsOf fuel i.slot id) none
    | .sizeBox _ s => contentItemsOf fuel s id
    | .areaBox _ s => contentItemsOf fuel s id
    | .portalBox _ _ slot => contentItemsOf fuel (portalSlotUnit slot) id

/-! ## Association-list store helpers

Rust `HashMap` stores modelled as association lists: `insert` replaces the
first entry with the key in place (or appends a new entry), `remove` drops
all entries with the key, lookup finds the first. -/

/-- First value stored under `k` (`HashMap::get`). -/
def lookupAL {κ α : Type} [DecidableEq κ] : List (κ × α) → κ → Option α
  | [], _ => none
  | (k', v) :: rest, k => if k' = k then some v else lookupAL rest k

/-- Replace the first entry with key `k` (or append one): `HashMap::insert`. -/
def insertAL {κ α : Type} [DecidableEq κ] : List (κ × α) → κ → α → List (κ × α)
  | [], k, v => [(k, v)]
  | (k', v') :: rest, k, v =>
    if k' = k then (k, v) :: rest else (k', v') :: insertAL rest k v

/-- Drop the entries with key `k`: `HashMap::remove` (ignoring the returned
value). -/
def removeAL {κ α : Type} [DecidableEq κ] : List (κ × α) → κ → List (κ × α)
  | [], _ => []
  | e :: rest, k => if e.1 = k then removeAL rest k else e :: removeAL rest k

/-- `base.into_iter().chain(overlay).collect()`: entries of `overlay`
override entries of `base` with the same key. -/
def unionAL {κ α : Type} [DecidableEq κ]
    (base overlay : List (κ × α)) : List (κ × α) :=
  overlay.foldl (fun m e => insertAL m e.1 e.2) base

/-! ## Animation state (`AnimatorStates`, module `animator.rs`)

Modelled from the spec: the `animator` module is not part of this snapshot.
Per the spec, animation state is a set of named, keyed sub-animations with
independent in-progress flags; the internal numeric easing logic is out of
scope (the core only asks "is any sub-animation in progress?" and the
per-frame progression is an external collaborator, modelled by the
environment's `animTick`). -/

/-- One named sub-animation: opaque payload plus its in-progress flag. -/
structure AnimSub where
  data : AnimData
  in_progress : Bool
deriving DecidableEq, Repr

/-- Modelled from the spec: `AnimatorStates` is the per-identity collection
of named sub-animations. -/
structure AnimatorStates where
  subs : List (String × AnimSub)
deriving DecidableEq, Repr

/-- `AnimatorStates::in_progress`: some named sub-animation is in
progress. -/
def AnimatorStates.inProgress (a : AnimatorStates) : Bool :=
  a.subs.any (fun e => e.2.in_progress)

/-- Modelled from the spec: `AnimatorStates::change(name, data)` — an
emission carrying data replaces or creates the named sub-animation (newly in
progress); an emission without data removes it. -/
def AnimatorStates.change (a : AnimatorStates) (name : String)
    (data : Option AnimData) : AnimatorStates :=
  match data with
  | some d => ⟨insertAL a.subs name ⟨d, true⟩⟩
  | none => ⟨a.subs.filter (fun e => e.1 ≠ name)⟩

/-- Modelled from the spec: `AnimatorStates::new(name, data)` — a fresh
animation state holding one named sub-animation, in progress. -/
def AnimatorStates.newAnim (name : String) (d : AnimData) : AnimatorStates :=
  ⟨[(name, ⟨d, true⟩)]⟩

/-- `AnimatorStates::default()`. -/
def defaultAnimator : AnimatorStates := ⟨[]⟩

/-! ## Declarative tree (`WidgetNode`, `WidgetUnitNode`, `WidgetComponent`)

`WidgetComponent` carries a processor index into the environment instead of
a function pointer (see the header); its write-once `idref` sink — an
external cell the reconciler merely writes this node's identity into — is
not represented.  Scalar payload fields are omitted exactly as for the
frozen tree. -/

mutual

inductive WidgetNode where
  | wnone
  | component (c : WidgetComponentData)
  | unit (u : WidgetUnitNode)
  | tuple (nodes : List WidgetNode)
deriving Repr

inductive WidgetComponentData where
  | mk (processor : Nat) (type_name : String) (key : Option String)
      (props : Props) (shared_props : Option Props)
      (listed_slots : List WidgetNode)
      (named_slots : List (String × WidgetNode))
deriving Repr

inductive WidgetUnitNode where
  | nnone
  | contentBox (id : WidgetId) (items : List ContentBoxItemNode)
  | flexBox (id : WidgetId) (items : List FlexBoxItemNode)
  | gridBox (id : WidgetId) (items : List GridBoxItemNode)
  | sizeBox (id : WidgetId) (slot : WidgetNode)
  | areaBox (id : WidgetId) (slot : WidgetNode)
  | imageBox (id : WidgetId)
  | textBox (id : WidgetId) (text : String)
  | portalBox (id : WidgetId) (owner : WidgetId) (slot : PortalBoxSlotNode)
deriving Repr

inductive ContentBoxItemNode where
  | mk (slot : WidgetNode) (layout : ContentItemLayout)
deriving Repr

inductive FlexBoxItemNode where
  | mk (slot : WidgetNode) (layout : FlexItemLayout)
deriving Repr

inductive GridBoxItemNode where
  | mk (slot : WidgetNode) (layout : GridItemLayout)
deriving Repr

inductive PortalBoxSlotNode where
  | slot (node : WidgetNode)
  | contentItem (item : ContentBoxItemNode)
  | flexItem (item : FlexBoxItemNode)
  | gridItem (item : GridBoxItemNode)
deriving Repr

end

/-- Slot of a declarative content-box item. -/
def ContentBoxItemNode.slot : ContentBoxItemNode → WidgetNode
  | .mk s _ => s

/-- Layout of a declarative content-box item. -/
def ContentBoxItemNode.layout : ContentBoxItemNode → ContentItemLayout
  | .mk _ l => l

/-- Slot of a declarative flex-box item. -/
def FlexBoxItemNode.slot : FlexBoxItemNode → WidgetNode
  | .mk s _ => s

/-- Layout of a declarative flex-box item. -/
def FlexBoxItemNode.layout : FlexBoxItemNode → FlexItemLayout
  | .mk _ l => l

/-- Slot of a declarative grid-box item. -/
def GridBoxItemNode.slot : GridBoxItemNode → WidgetNode
  | .mk s _ => s

/-- Layout of a declarative grid-box item. -/
def GridBoxItemNode.layout : GridBoxItemNode → GridItemLayout
  | .mk _ l => l

/-- The node held inside a declarative portal slot. -/
def portalSlotNodeNode : PortalBoxSlotNode → WidgetNode
  | .slot n => n
  | .contentItem i => i.slot
  | .flexItem i => i.slot
  | .gridItem i => i.slot

/-! ## Conversion to the frozen tree (`TryFrom<WidgetNode> for WidgetUnit`)

`WidgetNode::None` converts to `WidgetUnit::None`, a remaining `Component`
fails, a `Unit` converts recursively (each child slot must itself convert).
The snapshot's `match` in `unit/mod.rs` has no arm for `Tuple`; a tuple has
no frozen representation (`WidgetUnit` has no tuple variant), so conversion
of a `Tuple` is modelled as failing.  The per-container `TryFrom`
implementations for content/flex/grid/area/portal boxes are absent from this
snapshot and follow the pattern of the present `TryFrom<SizeBoxNode> for
SizeBox`: convert every child slot, failing if any child fails. -/

/-- The `collect::<Result<Vec<_>, _>>()` over a container's items: convert
every item's slot through `conv`, rebuild the item through `comb`, failing
if any single conversion fails. -/
def collectList {A C D : Type} (conv : A -> Option C) (comb : A -> C -> D) :
    List A -> Option (List D)
  | [] => some []
  | i :: rest =>
    match conv i, collectList conv comb rest with
    | some s, some l => some (comb i s :: l)
    | _, _ => none

def widgetNodeToUnit : Nat → WidgetNode → Option WidgetUnit
  | 0, _ => none
  | fuel + 1, n =>
    match n with
    | .wnone => some .wnone
    | .component _ => none
    | .tuple _ => none
    | .unit u =>
      match u with
      | .nnone => some .wnone
      | .imageBox id => some (.imageBox id)
      | .textBox id t => some (.textBox id t)
      | .sizeBox id slot =>
        (widgetNodeToUnit fuel slot).map (.sizeBox id)
      | .areaBox id slot =>
        (widgetNodeToUnit fuel slot).map (.areaBox id)
      | .portalBox id owner slot =>
        (widgetNodeToUnit fuel (portalSlotNodeNode slot)).map (fun s =>
          .portalBox id owner
            (match slot with
             | .slot _ => .slot s
             | .contentItem i => .contentItem (.mk s i.layout)
             | .flexItem i => .flexItem (.mk s i.layout)
             | .gridItem i => .gridItem (.mk s i.layout)))
      | .contentBox id items =>
        (collectList (fun i => widgetNodeToUnit fuel i.slot)
          (fun i s => ContentBoxItem.mk s i.layout) items).map (.contentBox id)
      | .flexBox id items =>
        (collectList (fun i => widgetNodeToUnit fuel i.slot)
          (fun i s => FlexBoxItem.mk s i.layout) items).map (.flexBox id)
      | .gridBox id items =>
        (collectList (fun i => widgetNodeToUnit fuel i.slot)
          (fun i s => GridBoxItem.mk s i.layout) items).map (.gridBox id)

/-- Does the declarative tree still contain a `Component` node (verification
helper for the conversion claims)?  At fuel `0` (depth budget exhausted) the
answer is `true`, matching `widgetNodeToUnit` failing there. -/
def hasComposite : Nat → WidgetNode → Bool
  | 0, _ => true
  | fuel + 1, n =>
    match n with
    | .wnone => false
    | .component _ => true
    | .tuple _ => false
    | .unit u =>
      match u with
      | .nnone | .imageBox _ | .textBox _ _ => false
      | .sizeBox _ slot => hasComposite fuel slot
      | .areaBox _ slot => hasComposite fuel slot
      | .portalBox _ _ slot => hasComposite fuel (portalSlotNodeNode slot)
      | .contentBox _ items => items.any (fun i => hasComposite fuel i.slot)
      | .flexBox _ items => items.any (fun i => hasComposite fuel i.slot)
      | .gridBox _ items => items.any (fun i => hasComposite fuel i.slot)

/-- Does the declarative tree contain a `Tuple` node (verification helper
for the conversion claims)? -/
def hasTuple : Nat → WidgetNode → Bool
  | 0, _ => true
  | fuel + 1, n =>
    match n with
    | .wnone => false
    | .component _ => false
    | .tuple _ => true
    | .unit u =>
      match u with
      | .nnone | .imageBox _ | .textBox _ _ => false
      | .sizeBox _ slot => hasTuple fuel slot
      | .areaBox _ slot => hasTuple fuel slot
      | .portalBox _ _ slot => hasTuple fuel (portalSlotNodeNode slot)
      | .contentBox _ items => items.any (fun i => hasTuple fuel i.slot)
      | .flexBox _ items => items.any (fun i => hasTuple fuel i.slot)
      | .gridBox _ items => items.any (fun i => hasTuple fuel i.slot)

/-! ## Processor interface (`FnWidget` and the life-cycle callbacks) -/

/-- The read view of `WidgetContext` a processor receives: identity, key,
props, merged shared props, current state snapshot, animation state and the
child slots.  (The messenger is not part of the processor context in the
source; messages reach only life-cycle callbacks.) -/
structure PCtx where
  id : WidgetId
  key : String
  props : Props
  shared_props : Props
  state : Props
  animator : AnimatorStates
  listed_slots : List WidgetNode
  named_slots : List (String × WidgetNode)

/-- Emissions a mount/change life-cycle closure makes through its
`WidgetMountOrChangeContext`: state updates via the state sender, messages
via the messenger, signals via the signal sender (tagged with the emitting
identity by the pass), animation updates via the animator. -/
structure CallbackOut where
  state_updates : List Props
  messages : List (WidgetId × Msg)
  signals : List Msg
  anim_updates : List (String × Option AnimData)

/-- The `WidgetMountOrChangeContext` read view handed to mount/change
closures: identity, (possibly processor-mutated) props and shared props, the
state snapshot, the drained message batch exposed by the `Messenger`, and
the animation state. -/
structure MCtx where
  id : WidgetId
  props : Props
  shared_props : Props
  state : Props
  messages : List Msg
  animator : AnimatorStates

/-- A mount or change life-cycle closure (`FnWidgetMountOrChange`), a pure
function of its context. -/
abbrev MountFn := MCtx → CallbackOut

/-- The `WidgetUnmountContext` read view: identity and last-known state. -/
structure UCtx where
  id : WidgetId
  state : Props

/-- Emissions of an unmount closure: messages and signals (its context has
no state or animation sender). -/
structure UOut where
  messages : List (WidgetId × Msg)
  signals : List Msg

/-- An unmount life-cycle closure (`FnWidgetUnmount`). -/
abbrev UnmountFn := UCtx → UOut

/-- Everything a processor invocation produces: the expansion node, the
possibly mutated props and shared props (the context borrows them mutably),
the life-cycle closures registered through the `WidgetLifeCycle` collector,
and the processor's own state/animation emissions. -/
structure ProcOut where
  node : WidgetNode
  props : Props
  shared_props : Props
  mount : List MountFn
  change : List MountFn
  unmount : List UnmountFn
  state_updates : List Props
  anim_updates : List (String × Option AnimData)

/-- A composite processor (`FnWidget`), a pure function of its context. -/
abbrev ProcFn := PCtx → ProcOut

/-- Environment closing the embedding: the processor table (components store
an index into it) and the external animation progression `animTick`
(`AnimatorStates::process` — numeric easing, out of scope per the spec; it
may send messages through the pass's message channel). -/
structure Env where
  procs : Nat → ProcFn
  animTick : WidgetId → AnimatorStates → AnimatorStates × List (WidgetId × Msg)

/-! ## Pass-local state threaded through the reconciliation walk -/

/-- The mutable state `process_with_context` threads through
`process_node`: the in-pass message store (drained per component), the
new-states store, the used-identity set, and the `Application` fields the
walk mutates (`state_changes`, `animators`, `unmount_closures`), plus the
two pass-global channels (messages, signals) and ghost logs (mount/change
invocations and drained message batches). -/
structure PassSt where
  messages : List (WidgetId × List Msg)
  new_states : List (WidgetId × Props)
  used_ids : List WidgetId
  state_changes : List (WidgetId × Props)
  animators : List (WidgetId × AnimatorStates)
  unmount_closures : List (WidgetId × List UnmountFn)
  sent_messages : List (WidgetId × Msg)
  sent_signals : List (WidgetId × Msg)
  mount_log : List WidgetId
  change_log : List WidgetId
  drain_log : List (WidgetId × List Msg)

/-- Fold the emissions of a batch of mount/change callback invocations into
the pass state: messages and signals join the pass channels (signals tagged
with the emitting identity). -/
def applyCallbackMsgs (id : WidgetId) (st : PassSt) (couts : List CallbackOut) :
    PassSt :=
  { st with
    sent_messages := st.sent_messages ++ couts.foldl (fun a c => a ++ c.messages) []
    sent_signals :=
      st.sent_signals ++ couts.foldl (fun a c => a ++ c.signals.map (fun s => (id, s))) [] }

/-- Drain of the per-component animation channel (`animation_receiver`):
for each emission, an identity that already has animation state gets
`AnimatorStates::change`, otherwise an emission carrying data creates a
fresh `AnimatorStates::new`. -/
def applyAnimUpdates (id : WidgetId) (animators : List (WidgetId × AnimatorStates))
    (upd : List (String × Option AnimData)) : List (WidgetId × AnimatorStates) :=
  upd.foldl (fun acc e =>
    match lookupAL acc id with
    | some s => insertAL acc id (s.change e.1 e.2)
    | none =>
      match e.2 with
      | some d => insertAL acc id (AnimatorStates.newAnim e.1 d)
      | none => acc) animators

/-! ## The reconciliation walk (`process_node` and friends) -/

/-- The per-item loop of `process_node_unit` for the multi-slot containers:
each enumerated item's slot is reconciled (through `f`, a closure over the
recursive walk) with the index-derived placeholder key `"<i>"`, the item
rebuilt around the result, and the pass state threaded left to right (each
sibling receives the parent's path unchanged — `path.clone()` per item). -/
def walkItems {α : Type} (getSlot : α → WidgetNode) (reb : α → WidgetNode → α)
    (f : WidgetNode → String → PassSt → WidgetNode × PassSt) :
    List (Nat × α) → PassSt → List α × PassSt
  | [], st => ([], st)
  | e :: rest, st =>
    let r := f (getSlot e.2) ("<" ++ toString e.1 ++ ">") st
    let rr := walkItems getSlot reb f rest r.2
    (reb e.2 r.1 :: rr.1, rr.2)

/-- Tail of `process_node_component` shared by the mount and change
branches: store the unmount closures (if any), drain the animation channel
(processor emissions first, then the callbacks', in invocation order),
recurse into the expansion (same `possible_key`, merged shared props as the
new inherited shared props), then drain the state-update channel into the
pending-state store.  `rec` is the recursive walk specialised to this
pass. -/
def componentFinish
    (rec : WidgetNode → List String → String → Option Props → PassSt →
      WidgetNode × PassSt)
    (id : WidgetId) (path1 : List String) (possible_key : String)
    (out : ProcOut) (couts : List CallbackOut) (st : PassSt) :
    WidgetNode × PassSt :=
  let st :=
    if out.unmount.isEmpty then st
    else { st with unmount_closures := insertAL st.unmount_closures id out.unmount }
  let animUpd := out.anim_updates ++ couts.foldl (fun a c => a ++ c.anim_updates) []
  let st := { st with animators := applyAnimUpdates id st.animators animUpd }
  let r := rec out.node path1 possible_key (some out.shared_props) st
  let stateUpd := out.state_updates ++ couts.foldl (fun a c => a ++ c.state_updates) []
  (r.1, { r.2 with
    state_changes := stateUpd.foldl (fun m d => insertAL m id d) r.2.state_changes })

/-- `Application::process_node` / `process_node_component` /
`process_node_unit` in one fuel-structural function.

`Empty` and `Tuple` nodes pass through unchanged (tuples are not recursively
reconciled).  A `Component` computes its key (explicit key, else the
caller-supplied `possible_key`), pushes it on the path, derives its identity
from `(type_name, path)`, records it as used, drains its message batch,
merges its shared props onto the inherited ones, invokes its processor with
the prior state if present (change) or a fresh default state recorded into
`new_states` if absent (mount), invokes the matching life-cycle closures,
stores unmount closures, drains the animation channel, recurses into the
expansion with the same `possible_key` and the merged shared props, and
finally drains the state-update channel into `state_changes`.  A `Unit`
recurses into each child slot: single-slot containers (area/size) and the
portal slot use the fixed placeholder key `"."`; the items of multi-slot
containers (content/flex/grid) use the index-derived placeholder `"<i>"`.

Fuel exhaustion (where the Rust recursion would simply continue; it is
unbounded only through composite expansions) returns the node unchanged. -/
def processNode (env : Env) :
    Nat → List (WidgetId × Props) → WidgetNode → List String → String →
    Option Props → PassSt → WidgetNode × PassSt
  | 0, _, node, _, _, _, st => (node, st)
  | fuel + 1, states, node, path, possible_key, master_shared, st =>
    match node with
    | .wnone => (node, st)
    | .tuple _ => (node, st)
    | .component (.mk proc type_name key props shared listed named) =>
      let shared_props :=
        match master_shared, shared with
        | some m, some s => Props.mergeWith m s
        | none, some s => s
        | some m, none => m
        | none, none => defaultProps
      let key1 := key.getD possible_key
      let path1 := path ++ [key1]
      let id : WidgetId := ⟨type_name, path1⟩
      let st := { st with used_ids := st.used_ids ++ [id] }
      let messages_list := (lookupAL st.messages id).getD []
      let st := { st with
        messages := removeAL st.messages id
        drain_log := st.drain_log ++ [(id, messages_list)] }
      let animator := (lookupAL st.animators id).getD defaultAnimator
      match lookupAL states id with
      | some state =>
        let out := env.procs proc
          ⟨id, key1, props, shared_props, state, animator, listed, named⟩
        let couts := out.change.map (fun f =>
          f ⟨id, out.props, out.shared_props, state, messages_list, animator⟩)
        let st := { st with change_log := st.change_log ++ out.change.map (fun _ => id) }
        let st := applyCallbackMsgs id st couts
        componentFinish
          (fun n p k sh s => processNode env fuel states n p k sh s)
          id path1 possible_key out couts st
      | none =>
        let state_data := defaultProps
        let out := env.procs proc
          ⟨id, key1, props, shared_props, state_data, animator, listed, named⟩
        let st := { st with new_states := insertAL st.new_states id state_data }
        let couts := out.mount.map (fun f =>
          f ⟨id, out.props, out.shared_props, state_data, messages_list, animator⟩)
        let st := { st with mount_log := st.mount_log ++ out.mount.map (fun _ => id) }
        let st := applyCallbackMsgs id st couts
        componentFinish
          (fun n p k sh s => processNode env fuel states n p k sh s)
          id path1 possible_key out couts st
    | .unit u =>
      match u with
      | .nnone | .imageBox _ | .textBox _ _ => (node, st)
      | .areaBox id slot =>
        let r := processNode env fuel states slot path "." master_shared st
        (.unit (.areaBox id r.1), r.2)
      | .sizeBox id slot =>
        let r := processNode env fuel states slot path "." master_shared st
        (.unit (.sizeBox id r.1), r.2)
      | .portalBox id owner pslot =>
        let r := processNode env fuel states (portalSlotNodeNode pslot) path "."
          master_shared st
        let pslot1 :=
          match pslot with
          | .slot _ => PortalBoxSlotNode.slot r.1
          | .contentItem i => .contentItem (.mk r.1 i.layout)
          | .flexItem i => .flexItem (.mk r.1 i.layout)
          | .gridItem i => .gridItem (.mk r.1 i.layout)
        (.unit (.portalBox id owner pslot1), r.2)
      | .contentBox id items =>
        let rr := walkItems ContentBoxItemNode.slot (fun i u => .mk u i.layout)
          (fun n k s => processNode env fuel states n path k master_shared s)
          items.enum st
        (.unit (.contentBox id rr.1), rr.2)
      | .flexBox id items =>
        let rr := walkItems FlexBoxItemNode.slot (fun i u => .mk u i.layout)
          (fun n k s => processNode env fuel states n path k master_shared s)
          items.enum st
        (.unit (.flexBox id rr.1), rr.2)
      | .gridBox id items =>
        let rr := walkItems GridBoxItemNode.slot (fun i u => .mk u i.layout)
          (fun n k s => processNode env fuel states n path k master_shared s)
          items.enum st
        (.unit (.gridBox id rr.1), rr.2)

/-! ## The application orchestrator (`Application`) -/

/-- `InvalidationCause` (why the last pass ran). -/
inductive InvalidationCause where
  | none
  | forced
  | stateChange (id : WidgetId)
  | messageReceived (id : WidgetId)
  | animationInProgress (id : WidgetId)
deriving DecidableEq, Repr

/-- The `Application` fields the modelled pass touches, plus ghost
instrumentation (the fields from `used_ids` on) rewritten by every pass that
runs and read by no modelled behaviour.  The `ChangeNotifier` cell is the
`notifier` flag. -/
structure App where
  tree : WidgetNode
  rendered_tree : WidgetUnit
  states : List (WidgetId × Props)
  state_changes : List (WidgetId × Props)
  animators : List (WidgetId × AnimatorStates)
  messages : List (WidgetId × List Msg)
  signals : List (WidgetId × Msg)
  unmount_closures : List (WidgetId × List UnmountFn)
  dirty : Bool
  render_changed : Bool
  last_invalidation_cause : InvalidationCause
  notifier : Bool
  used_ids : List WidgetId
  mount_log : List WidgetId
  change_log : List WidgetId
  drain_log : List (WidgetId × List Msg)
  unmount_log : List (WidgetId × Props)
  pass_sent : List (WidgetId × Msg)
  walk_result : WidgetNode

/-- `Application::new()` (layout and serialization-registry fields are out of
scope). -/
def newApp : App where
  tree := .wnone
  rendered_tree := .wnone
  states := []
  state_changes := []
  animators := []
  messages := []
  signals := []
  unmount_closures := []
  dirty := true
  render_changed := false
  last_invalidation_cause := .none
  notifier := false
  used_ids := []
  mount_log := []
  change_log := []
  drain_log := []
  unmount_log := []
  pass_sent := []
  walk_result := .wnone

/-- Lines 701–712 of `process_with_context`: the last-invalidation-cause
assignments, in source order — `Forced` if the dirty flag is set, then
overwritten by `AnimationInProgress` of the first in-progress animator entry
if any, then by `MessageReceived` of the first message entry if any, then by
`StateChange` of the first pending-state entry if any. -/
def computeCause (dirty : Bool) (animators : List (WidgetId × AnimatorStates))
    (messages : List (WidgetId × List Msg))
    (changed_states : List (WidgetId × Props)) : InvalidationCause :=
  let c := InvalidationCause.none
  let c := if dirty then InvalidationCause.forced else c
  let c :=
    match animators.find? (fun e => e.2.inProgress) with
    | some e => InvalidationCause.animationInProgress e.1
    | none => c
  let c :=
    match messages.head? with
    | some e => InvalidationCause.messageReceived e.1
    | none => c
  let c :=
    match changed_states.head? with
    | some e => InvalidationCause.stateChange e.1
    | none => c
  c

/-- Accumulator of the post-walk pruning filter (lines 741–766): the kept
states, and the stores and channels the filter mutates while it runs. -/
structure PruneAcc where
  states : List (WidgetId × Props)
  animators : List (WidgetId × AnimatorStates)
  unmount_closures : List (WidgetId × List UnmountFn)
  sent_messages : List (WidgetId × Msg)
  sent_signals : List (WidgetId × Msg)
  unmount_log : List (WidgetId × Props)

/-- The not-used branch of the pruning filter: the entry's unmount closures
(if any) are removed from the store and each is invoked once with a context
carrying the identity and its state (emissions joining the pass channels,
signals tagged with the identity), its animation entry is removed, and the
state entry is dropped. -/
def pruneDrop (acc : PruneAcc) (entry : WidgetId × Props) : PruneAcc :=
  let closures := (lookupAL acc.unmount_closures entry.1).getD []
  let uouts := closures.map (fun f => f ⟨entry.1, entry.2⟩)
  { acc with
    unmount_closures := removeAL acc.unmount_closures entry.1
    animators := removeAL acc.animators entry.1
    sent_messages := acc.sent_messages ++ uouts.foldl (fun a o => a ++ o.messages) []
    sent_signals :=
      acc.sent_signals ++ uouts.foldl (fun a o => a ++ o.signals.map (fun s => (entry.1, s))) []
    unmount_log := acc.unmount_log ++ closures.map (fun _ => (entry.1, entry.2)) }

/-- One step of the post-walk pruning filter: a state entry whose identity
was used this pass is kept; otherwise it is dropped with its teardown
(`pruneDrop`). -/
def pruneStep (used : List WidgetId) (acc : PruneAcc) (entry : WidgetId × Props) :
    PruneAcc :=
  if used.contains entry.1 then { acc with states := acc.states ++ [entry] }
  else pruneDrop acc entry

/-- The post-pass message drain (lines 767–773): push each channel message
onto its addressee's queue, creating the queue if absent.  The queue store
this runs against is empty (it was taken at pass start), so only messages
sent during the pass survive it. -/
def pushMessage (m : List (WidgetId × List Msg)) (id : WidgetId) (msg : Msg) :
    List (WidgetId × List Msg) :=
  match lookupAL m id with
  | some l => insertAL m id (l ++ [msg])
  | none => m ++ [(id, [msg])]

/-- Should a pass run (negation of the early-return test at line 698:
`!self.dirty && changed_states.is_empty() && messages.is_empty() &&
!changed_animators`)?  The dirty flag here includes a consumed change
notification. -/
def passRuns (app : App) : Bool :=
  (app.dirty || app.notifier) || !app.state_changes.isEmpty ||
    !app.messages.isEmpty || app.animators.any (fun e => e.2.inProgress)

/-- The field resets every `process_with_context` call performs before the
early-return test: consume the change notification into the dirty flag,
reset the invalidation cause and the render-changed flag, and take the
pending-state and message stores. -/
def clearedApp (app : App) : App :=
  { app with
    notifier := false
    dirty := app.dirty || app.notifier
    last_invalidation_cause := .none
    render_changed := false
    state_changes := []
    messages := [] }

/-- The state snapshot a pass reconciles against:
`old_states.chain(changed_states).collect()` — prior states overridden by
the pending replacements taken at pass start. -/
def mergedStates (app : App) : List (WidgetId × Props) :=
  unionAL app.states app.state_changes

/-- The animator tick loop (`for (k, a) in &mut self.animators {
a.process(...) }`): progress every entry through the environment's
`animTick`, collecting the messages it sends into the pass channel. -/
def tickAnimators (env : Env) (app : App) :
    List (WidgetId × AnimatorStates) × List (WidgetId × Msg) :=
  app.animators.foldl
    (fun (acc : List (WidgetId × AnimatorStates) × List (WidgetId × Msg)) e =>
      let r := env.animTick e.1 e.2
      (acc.1 ++ [(e.1, r.1)], acc.2 ++ r.2))
    ([], [])

/-- The pass state the walk starts from: the taken message store, empty
new-states/used/pending stores (pending states were taken at pass start),
the ticked animators, the carried-over unmount closures and the tick's
messages already in the channel. -/
def passInitSt (env : Env) (app : App) : PassSt :=
  { messages := app.messages, new_states := [], used_ids := [],
    state_changes := [], animators := (tickAnimators env app).1,
    unmount_closures := app.unmount_closures,
    sent_messages := (tickAnimators env app).2,
    sent_signals := [], mount_log := [], change_log := [], drain_log := [] }

/-- The reconciliation walk of a pass: root call with empty path, the root
placeholder key `"<*>"` and no inherited shared props. -/
def passWalk (env : Env) (fuel : Nat) (app : App) : WidgetNode × PassSt :=
  processNode env fuel (mergedStates app) app.tree [] "<*>" none (passInitSt env app)

/-- The post-walk pruning fold over `states.chain(new_states)`. -/
def passPrune (env : Env) (fuel : Nat) (app : App) : PruneAcc :=
  let st1 := (passWalk env fuel app).2
  (unionAL (mergedStates app) st1.new_states).foldl (pruneStep st1.used_ids)
    ⟨[], st1.animators, st1.unmount_closures, st1.sent_messages,
      st1.sent_signals, []⟩

/-- The application after a pass that ran, before the conversion of the walk
result is attempted: pruned states, staged state changes, animators filtered
to the in-progress ones, the message store rebuilt from the pass channel
only, the pass signals, the surviving unmount closures, and the ghost
instrumentation of this pass. -/
def passApp (env : Env) (fuel : Nat) (app : App) : App :=
  let st1 := (passWalk env fuel app).2
  let pr := passPrune env fuel app
  { clearedApp app with
    dirty := false
    states := pr.states
    state_changes := st1.state_changes
    animators := pr.animators.filter (fun e => e.2.inProgress)
    messages := pr.sent_messages.foldl (fun m e => pushMessage m e.1 e.2) []
    signals := pr.sent_signals
    unmount_closures := pr.unmount_closures
    last_invalidation_cause :=
      computeCause (app.dirty || app.notifier) app.animators app.messages
        app.state_changes
    used_ids := st1.used_ids
    mount_log := st1.mount_log
    change_log := st1.change_log
    drain_log := st1.drain_log
    unmount_log := pr.unmount_log
    pass_sent := pr.sent_messages
    walk_result := (passWalk env fuel app).1 }

/-- `Application::process_with_context`.  Returns the updated application and
the boolean the source returns (`true` iff a pass ran and the conversion of
the reconciled tree to the frozen tree succeeded, in which case the frozen
tree is teleported and published; on conversion failure the previously
rendered tree is kept).

Faithful points worth noting: the pending-state and message stores are taken
at the start (and the leftover in-pass message store is dropped at the end);
the render-changed flag is cleared and never set back; the invalidation
cause is the last of the sequential assignments (see `computeCause`); the
animator tick runs before the walk; unused identities are pruned by
`pruneStep`; all animation entries not in progress are dropped at the end.
(`animations_delta_time` clamping is floating-point bookkeeping absorbed
into the environment's `animTick` and not modelled.) -/
def processWithContext (env : Env) (fuel : Nat) (app : App) : App × Bool :=
  if passRuns app then
    match widgetNodeToUnit fuel (passWalk env fuel app).1 with
    | some tree =>
      ({ passApp env fuel app with rendered_tree := teleportPortals fuel tree }, true)
    | none => (passApp env fuel app, false)
  else (clearedApp app, false)

/-- `Application::state_write`: stage a pending state replacement, but only
for an identity that already has a state entry. -/
def stateWrite (app : App) (id : WidgetId) (data : Props) : App :=
  if (lookupAL app.states id).isSome then
    { app with state_changes := insertAL app.state_changes id data }
  else app

/-- `Application::state_mutate`: read the state of a widget and stage the
value the closure returns; nothing happens if the widget has no state. -/
def stateMutate (app : App) (id : WidgetId) (f : Props → Props) : App :=
  match lookupAL app.states id with
  | some s => { app with state_changes := insertAL app.state_changes id (f s) }
  | none => app

/-- `Application::state_mutate_cloned`: clone the state, let the closure
mutate the clone (modelled as a function from the clone to its final value),
and stage the result; nothing happens if the widget has no state. -/
def stateMutateCloned (app : App) (id : WidgetId) (f : Props → Props) : App :=
  match lookupAL app.states id with
  | some s => { app with state_changes := insertAL app.state_changes id (f s) }
  | none => app

/-- `Application::mark_dirty`. -/
def markDirty (app : App) : App := { app with dirty := true }

/-- `Application::apply`: replace the tree and mark a pass required. -/
def applyTree (app : App) (tree : WidgetNode) : App :=
  { app with tree := tree, dirty := true }


/-! ## Store lemmas -/

theorem lookupAL_insert_self {κ α : Type} [DecidableEq κ]
    (l : List (κ × α)) (k : κ) (v : α) : lookupAL (insertAL l k v) k = some v := by
  induction l with
  | nil => simp [insertAL, lookupAL]
  | cons e rest ih =>
    by_cases h : e.1 = k
    · simp [insertAL, h, lookupAL]
    · simp [insertAL, h, lookupAL, ih]

theorem lookupAL_insert_ne {κ α : Type} [DecidableEq κ]
    (l : List (κ × α)) (k k' : κ) (v : α) (h : k' ≠ k) :
    lookupAL (insertAL l k v) k' = lookupAL l k' := by
  induction l with
  | nil => simp [insertAL, lookupAL, Ne.symm h]
  | cons e rest ih =>
    by_cases he : e.1 = k
    · subst he
      simp only [insertAL, if_pos rfl, lookupAL]
      rw [if_neg (Ne.symm h), if_neg (Ne.symm h)]
    · simp only [insertAL, if_neg he, lookupAL]
      by_cases he' : e.1 = k'
      · simp [he']
      · simp [he', ih]

theorem lookupAL_insert_isSome {κ α : Type} [DecidableEq κ]
    (l : List (κ × α)) (k k' : κ) (v : α)
    (h : (lookupAL l k').isSome) : (lookupAL (insertAL l k v) k').isSome := by
  by_cases hk : k' = k
  · subst hk; simp [lookupAL_insert_self]
  · rwa [lookupAL_insert_ne l k k' v hk]

theorem lookupAL_remove_self {κ α : Type} [DecidableEq κ]
    (l : List (κ × α)) (k : κ) : lookupAL (removeAL l k) k = none := by
  induction l with
  | nil => simp [removeAL, lookupAL]
  | cons e rest ih =>
    by_cases h : e.1 = k
    · simpa [removeAL, h] using ih
    · simpa [removeAL, lookupAL, h] using ih

theorem lookupAL_remove_ne {κ α : Type} [DecidableEq κ]
    (l : List (κ × α)) (k k' : κ) (h : k' ≠ k) :
    lookupAL (removeAL l k) k' = lookupAL l k' := by
  induction l with
  | nil => simp [removeAL]
  | cons e rest ih =>
    by_cases he : e.1 = k
    · subst he
      simp only [removeAL, if_pos rfl, lookupAL]
      rw [if_neg (fun hh : e.1 = k' => h (hh ▸ rfl))]
      exact ih
    · simp only [removeAL, if_neg he, lookupAL]
      by_cases he' : e.1 = k'
      · simp [he']
      · simp [he', ih]

theorem lookupAL_append {κ α : Type} [DecidableEq κ]
    (l m : List (κ × α)) (k : κ) :
    lookupAL (l ++ m) k = (lookupAL l k).orElse (fun _ => lookupAL m k) := by
  induction l with
  | nil => simp [lookupAL]
  | cons e rest ih =>
    by_cases he : e.1 = k
    · simp [lookupAL, he]
    · simp [lookupAL, he, ih]

theorem lookupAL_filter_none {κ α : Type} [DecidableEq κ]
    (l : List (κ × α)) (p : κ × α → Bool) (k : κ)
    (h : lookupAL l k = none) : lookupAL (l.filter p) k = none := by
  induction l with
  | nil => simp [lookupAL]
  | cons e rest ih =>
    simp only [lookupAL] at h
    by_cases he : e.1 = k
    · simp [he] at h
    · rw [if_neg he] at h
      by_cases hp : p e
      · simp only [List.filter_cons, hp, if_true, lookupAL]
        rw [if_neg he]
        exact ih h
      · simp only [List.filter_cons, hp]
        simpa using ih h

theorem lookupAL_filter_prop {κ α : Type} [DecidableEq κ]
    (l : List (κ × α)) (p : κ × α → Bool) (k : κ) (v : α)
    (h : lookupAL (l.filter p) k = some v) : p (k, v) = true := by
  induction l with
  | nil => simp [lookupAL] at h
  | cons e rest ih =>
    by_cases hp : p e
    · simp only [List.filter_cons, hp, if_true, lookupAL] at h
      by_cases he : e.1 = k
      · rw [if_pos he] at h
        have hv : e.2 = v := by injection h
        have hev : e = (k, v) := by
          obtain ⟨a, b⟩ := e
          simp only [Prod.mk.injEq]
          exact ⟨he, hv⟩
        rwa [hev] at hp
      · rw [if_neg he] at h
        exact ih h
    · simp only [List.filter_cons, hp] at h
      simpa using ih h

theorem lookupAL_cons_ne {κ α : Type} [DecidableEq κ]
    (e : κ × α) (l : List (κ × α)) (k : κ) (h : e.1 ≠ k) :
    lookupAL (e :: l) k = lookupAL l k := by
  simp [lookupAL, h]

/-! ## Verification fixtures: concrete environments and applications used by
witnesses and counterexamples -/

/-- A processor that expands to nothing, registers no callbacks and emits
nothing. -/
def trivialProc : ProcFn := fun _ => ⟨.wnone, [], [], [], [], [], [], []⟩

/-- Environment with trivial processors and an identity animation tick. -/
def envTrivial : Env := ⟨fun _ => trivialProc, fun _ a => (a, [])⟩

/-- Identity used as a message addressee in fixtures. -/
def mId : WidgetId := ⟨"m", ["x"]⟩

/-- Identity of the fixture component `w` under key `k`. -/
def cId : WidgetId := ⟨"w", ["k"]⟩

/-- A one-component tree: composite of type `w` with explicit key `k`. -/
def treeW : WidgetNode := .component (.mk 0 "w" (some "k") [] none [] [])

theorem processWithContext_render_changed (env : Env) (fuel : Nat) (app : App) :
    (processWithContext env fuel app).1.render_changed = false := by
  unfold processWithContext
  by_cases h : passRuns app
  · simp only [h, if_true]
    cases hc : widgetNodeToUnit fuel (passWalk env fuel app).1 with
    | some t => simp [passApp, clearedApp]
    | none => simp [passApp, clearedApp]
  · simp [h, clearedApp]

theorem processWithContext_cause (env : Env) (fuel : Nat) (app : App)
    (h : passRuns app = true) :
    (processWithContext env fuel app).1.last_invalidation_cause =
      computeCause (app.dirty || app.notifier) app.animators app.messages
        app.state_changes := by
  unfold processWithContext
  simp only [h, if_true]
  cases hc : widgetNodeToUnit fuel (passWalk env fuel app).1 with
  | some t => simp [passApp, clearedApp]
  | none => simp [passApp, clearedApp]

/-! ## Claim C10 -/

/-- Claim C10: for an identity with no entry in the states store,
`state_write` / `state_mutate` / `state_mutate_cloned` are complete no-ops
(no pending state change is staged, no store modified), and consequently
such a call alone never changes what a subsequent `process()` call does —
in particular it cannot cause a pass to run. -/
theorem claim10_state_write_noop (app : App) (id : WidgetId) (data : Props)
    (f g : Props → Props) (h : lookupAL app.states id = none) :
    stateWrite app id data = app ∧ stateMutate app id f = app ∧
    stateMutateCloned app id g = app ∧
    ∀ env fuel, processWithContext env fuel (stateWrite app id data) =
      processWithContext env fuel app := by
  have h1 : stateWrite app id data = app := by simp [stateWrite, h]
  have h2 : stateMutate app id f = app := by simp [stateMutate, h]
  have h3 : stateMutateCloned app id g = app := by simp [stateMutateCloned, h]
  exact ⟨h1, h2, h3, fun env fuel => by rw [h1]⟩

/-- Witness for C10 at a concrete input: the fresh application has no state
entry for `mId`, so writing state for `mId` changes nothing. -/
theorem claim10_witness :
    stateWrite newApp mId [("a", 1)] = newApp :=
  (claim10_state_write_noop newApp mId [("a", 1)] id id rfl).1

/-! ## Claim C6 -/

/-- Claim C6 (code bug): every pass resets the render-changed flag to
`false`, but — unlike the spec's and the accessors' documented contract —
the source never sets it back to `true`, not even when the conversion of the
reconciled tree succeeds: after any `process_with_context` call, including a
successful first pass on a fresh application (which returns `true`), the
flag reads `false`. -/
theorem claim6_render_changed_bug :
    (∀ env fuel app, (processWithContext env fuel app).1.render_changed = false)
    ∧ (processWithContext envTrivial 1 newApp).2 = true
    ∧ (processWithContext envTrivial 1 newApp).1.render_changed = false :=
  ⟨processWithContext_render_changed, rfl, rfl⟩

/-! ## Claim C2 -/

/-- Fixture: a forced (dirty) application that also has one queued
message. -/
def appForcedMsg : App := { newApp with dirty := true, messages := [(mId, [5])] }

/-- Counterexample to claim C2 as stated: with the forced flag set at pass
start and a pending message also present, the recorded cause is
`MessageReceived`, not `Forced` — the priority claimed by the spec is
reversed in the code (each later cause assignment overwrites the earlier
one). -/
theorem claim2_counterexample :
    appForcedMsg.dirty = true ∧
    (processWithContext envTrivial 1 appForcedMsg).1.last_invalidation_cause =
      .messageReceived mId ∧
    InvalidationCause.messageReceived mId ≠ .forced :=
  ⟨rfl, rfl, by decide⟩

/-- Claim C2 amended: the cause is chosen by the reversed priority
StateChange > MessageReceived > AnimationInProgress > Forced (the last
matching assignment wins): whenever pending state changes exist at pass
start the cause is `StateChange` of the first entry; with none but pending
messages it is `MessageReceived` of the first entry; with neither but an
in-progress animation it is `AnimationInProgress` of the first such entry;
`Forced` is reported only when the dirty flag is set and none of the other
sources are present. -/
theorem claim2_cause_priority (env : Env) (fuel : Nat) (app : App) :
    ((∀ id p rest, app.state_changes = (id, p) :: rest →
      (processWithContext env fuel app).1.last_invalidation_cause = .stateChange id)
    ∧ (∀ id ms rest, app.state_changes = [] → app.messages = (id, ms) :: rest →
      (processWithContext env fuel app).1.last_invalidation_cause = .messageReceived id)
    ∧ (∀ e, app.state_changes = [] → app.messages = [] →
      app.animators.find? (fun x => x.2.inProgress) = some e →
      (processWithContext env fuel app).1.last_invalidation_cause =
        .animationInProgress e.1)
    ∧ (app.state_changes = [] → app.messages = [] →
      app.animators.find? (fun x => x.2.inProgress) = none →
      (app.dirty || app.notifier) = true →
      (processWithContext env fuel app).1.last_invalidation_cause = .forced)) := by
  refine ⟨?_, ?_, ?_, ?_⟩
  · intro id p rest hsc
    have hrun : passRuns app = true := by
      simp [passRuns, hsc]
    rw [processWithContext_cause env fuel app hrun]
    simp [computeCause, hsc]
  · intro id ms rest hsc hm
    have hrun : passRuns app = true := by
      simp [passRuns, hm]
    rw [processWithContext_cause env fuel app hrun]
    simp [computeCause, hsc, hm]
  · intro e hsc hm hfind
    have hmem := List.mem_of_find?_eq_some hfind
    have hp := List.find?_some hfind
    have hany : app.animators.any (fun x => x.2.inProgress) = true :=
      List.any_eq_true.mpr ⟨e, hmem, hp⟩
    have hrun : passRuns app = true := by
      simp [passRuns, hany]
    rw [processWithContext_cause env fuel app hrun]
    simp [computeCause, hsc, hm, hfind]
  · intro hsc hm hfind hd
    have hrun : passRuns app = true := by
      simp [passRuns, hd]
    rw [processWithContext_cause env fuel app hrun]
    simp [computeCause, hsc, hm, hfind, hd]

/-- Fixture: an application with exactly one pending state change (and the
forced flag also set, to exercise the priority). -/
def appStateChange : App := { newApp with
  dirty := true
  states := [(cId, [])]
  state_changes := [(cId, [("n", 2)])] }

/-- Witness for the amended C2 at a concrete input: with a pending state
change present (and the forced flag set), the recorded cause is
`StateChange` of that identity. -/
theorem claim2_witness :
    (processWithContext envTrivial 1 appStateChange).1.last_invalidation_cause =
      .stateChange cId :=
  (claim2_cause_priority envTrivial 1 appStateChange).1 cId [("n", 2)] [] rfl

/-! ## Claim C1 -/

/-- Surjective pairing eta for content-box items. -/
theorem ContentBoxItem.eta (i : ContentBoxItem) :
    ContentBoxItem.mk i.slot i.layout = i := by
  cases i; rfl

/-- Fixture: owner content box `B` nested under a non-owner root `A`, with a
portal owned by `B` beside it. -/
def aId : WidgetId := ⟨"content_box", ["A"]⟩

/-- Identity of the nested owner content box of the C1 fixture. -/
def bId : WidgetId := ⟨"content_box", ["A", "B"]⟩

/-- The text payload the fixture portals wrap. -/
def payloadText : WidgetUnit := .textBox ⟨"text_box", ["t"]⟩ "hello"

/-- C1 fixture tree: root content box `A` containing the owner content box
`B` (empty) and a portal owned by `B` wrapping a text node. -/
def c1tree : WidgetUnit :=
  .contentBox aId
    [.mk (.contentBox bId []) ⟨1⟩,
     .mk (.portalBox ⟨"p", ["q"]⟩ bId (.slot payloadText)) ⟨2⟩]

/-- Counterexample to claim C1 as stated: the pair owned by `B` is
extracted, `B` is a content box present in the portal-stripped tree, yet
after injection `B`'s item list is still empty and the payload is gone from
the whole output tree (the injection walk checks the holding list at the
root `A`, finds no entry owned by `A`, and never descends into `A`'s
children). -/
theorem claim1_counterexample :
    (consumePortals 8 c1tree []).2 = [(bId, .slot payloadText)] ∧
    contentItemsOf 8 (consumePortals 8 c1tree []).1 bId = some [] ∧
    teleportPortals 8 c1tree =
      .contentBox aId [.mk (.contentBox bId []) ⟨1⟩, .mk portalHusk ⟨2⟩] :=
  ⟨rfl, rfl, rfl⟩

/-- Claim C1 amended: injection checks the holding list at a node and
descends into a node's children only directly after grafting a payload
there, so only owners reachable through such grafts receive their payloads;
in particular a payload whose owner is the root of the portal-stripped tree
is grafted onto it — injecting a single-entry holding list owned by a root
content box appends exactly the payload (converted to a content item, with
layout metadata defaulted as needed) to the root's item list. -/
theorem claim1_inject_root_graft (rid : WidgetId) (items : List ContentBoxItem)
    (s : PortalBoxSlot) :
    injectPortals 1 (.contentBox rid items) [(rid, s)] =
      ⟨.contentBox rid (items ++ [toContentItem s]), [], false⟩ := by
  cases items with
  | nil =>
    simp [injectPortals, WidgetUnit.asDataId, findOwnerPos, swapRemove,
      injectSeq, ContentBoxItem.eta]
  | cons i rest =>
    simp [injectPortals, WidgetUnit.asDataId, findOwnerPos, swapRemove,
      injectSeq, ContentBoxItem.eta]

/-! ## Claim C7 -/

/-- Identity of the C7 root content box. -/
def rootId : WidgetId := ⟨"content_box", ["root"]⟩

/-- Identity of the first nesting level of the C7 fixture. -/
def s1Id : WidgetId := ⟨"size_box", ["root", "a"]⟩

/-- Identity of the second nesting level of the C7 fixture. -/
def s2Id : WidgetId := ⟨"size_box", ["root", "a", "b"]⟩

/-- C7 fixture: a single content-box root with identity `root` containing,
nested three levels deep, a portal owned by `root` wrapping a text node. -/
def c7tree : WidgetUnit :=
  .contentBox rootId
    [.mk (.sizeBox s1Id (.sizeBox s2Id
      (.portalBox ⟨"p", ["pp"]⟩ rootId (.slot payloadText)))) ⟨7⟩]

/-- Counterexample to claim C7 as stated: after teleportation a Portal node
does remain in the output tree — the consumed portal is replaced in place by
a default-valued portal husk (`std::mem::take`), not removed. -/
theorem claim7_counterexample :
    containsPortalUnit 8 (teleportPortals 8 c7tree) = true := rfl

/-- Claim C7 amended: after teleportation the root's item list contains
exactly one new entry holding the text node (appended with defaulted layout
metadata), and the portal's payload is removed from its original position —
but the consumed portal leaves a default-valued empty portal husk where it
stood, so a (payload-less) Portal node remains in the output tree. -/
theorem claim7_portal_roundtrip :
    teleportPortals 8 c7tree =
      .contentBox rootId
        [.mk (.sizeBox s1Id (.sizeBox s2Id portalHusk)) ⟨7⟩,
         .mk payloadText ContentItemLayout.dflt] ∧
    containsPortalUnit 8 (teleportPortals 8 c7tree) = true :=
  ⟨rfl, rfl⟩

/-! ## Claim C5 -/

theorem collectList_eq_none_iff {A C D : Type} (conv : A → Option C)
    (comb : A → C → D) (l : List A) :
    collectList conv comb l = none ↔ l.any (fun i => (conv i).isNone) = true := by
  induction l with
  | nil => simp [collectList]
  | cons i rest ih =>
    cases hc : conv i with
    | none => simp [collectList, hc]
    | some s =>
      cases hr : collectList conv comb rest with
      | none =>
        have := ih.mp hr
        simp [collectList, hc, hr, this]
      | some l' =>
        have : ¬ rest.any (fun i => (conv i).isNone) = true := fun hh => by
          rw [ih.mpr hh] at hr; exact Option.noConfusion hr
        simp [collectList, hc, hr, this]

theorem list_any_or {A : Type} (p q : A → Bool) (l : List A) :
    l.any (fun x => p x || q x) = (l.any p || l.any q) := by
  induction l with
  | nil => simp
  | cons x rest ih =>
    simp only [List.any_cons, ih]
    cases p x <;> cases q x <;> cases rest.any p <;> cases rest.any q <;> rfl

theorem list_any_congr {A : Type} (p q : A → Bool) (l : List A)
    (h : ∀ x ∈ l, p x = q x) : l.any p = l.any q := by
  induction l with
  | nil => rfl
  | cons x rest ih =>
    simp only [List.any_cons, h x (by simp),
      ih (fun y hy => h y (List.mem_cons_of_mem x hy))]

theorem widgetNodeToUnit_eq_none_iff (fuel : Nat) (n : WidgetNode) :
    widgetNodeToUnit fuel n = none ↔
      (hasComposite fuel n || hasTuple fuel n) = true := by
  induction fuel generalizing n with
  | zero => simp [widgetNodeToUnit, hasComposite, hasTuple]
  | succ fuel ih =>
    have hpt : ∀ m : WidgetNode,
        (widgetNodeToUnit fuel m).isNone =
          (hasComposite fuel m || hasTuple fuel m) := by
      intro m
      have h := ih m
      cases hb : widgetNodeToUnit fuel m with
      | none => simp only [Option.isNone_none]; exact (h.mp hb).symm
      | some s =>
        simp only [Option.isNone_some]
        cases hc2 : (hasComposite fuel m || hasTuple fuel m)
        · rfl
        · exact absurd (h.mpr hc2) (by simp [hb])
    match n with
    | .wnone => simp [widgetNodeToUnit, hasComposite, hasTuple]
    | .component c => simp [widgetNodeToUnit, hasComposite, hasTuple]
    | .tuple ns => simp [widgetNodeToUnit, hasComposite, hasTuple]
    | .unit u =>
      match u with
      | .nnone => simp [widgetNodeToUnit, hasComposite, hasTuple]
      | .imageBox id => simp [widgetNodeToUnit, hasComposite, hasTuple]
      | .textBox id t => simp [widgetNodeToUnit, hasComposite, hasTuple]
      | .sizeBox id slot =>
        simp [widgetNodeToUnit, hasComposite, hasTuple, Option.map_eq_none',
          ih slot]
      | .areaBox id slot =>
        simp [widgetNodeToUnit, hasComposite, hasTuple, Option.map_eq_none',
          ih slot]
      | .portalBox id owner slot =>
        simp [widgetNodeToUnit, hasComposite, hasTuple, Option.map_eq_none',
          ih (portalSlotNodeNode slot)]
      | .contentBox id items =>
        simp only [widgetNodeToUnit, hasComposite, hasTuple,
          Option.map_eq_none', collectList_eq_none_iff]
        rw [list_any_congr _ _ items (fun i _ => hpt i.slot), list_any_or]
      | .flexBox id items =>
        simp only [widgetNodeToUnit, hasComposite, hasTuple,
          Option.map_eq_none', collectList_eq_none_iff]
        rw [list_any_congr _ _ items (fun i _ => hpt i.slot), list_any_or]
      | .gridBox id items =>
        simp only [widgetNodeToUnit, hasComposite, hasTuple,
          Option.map_eq_none', collectList_eq_none_iff]
        rw [list_any_congr _ _ items (fun i _ => hpt i.slot), list_any_or]

theorem processWithContext_walk_result (env : Env) (fuel : Nat) (app : App)
    (h : passRuns app = true) :
    (processWithContext env fuel app).1.walk_result = (passWalk env fuel app).1 := by
  unfold processWithContext
  simp only [h, if_true]
  cases hc : widgetNodeToUnit fuel (passWalk env fuel app).1 with
  | some t => simp [passApp]
  | none => simp [passApp]

/-- Fixture: an application whose tree is a bare tuple (which reconciliation
passes through untouched), with a previously published rendered tree. -/
def appTuple : App := { newApp with
  tree := .tuple []
  dirty := true
  rendered_tree := payloadText }

/-- Counterexample to claim C5 as stated: after the pass, the reconciled
tree contains no Composite at all, yet conversion fails (the walk result is
a Tuple, which has no frozen representation), the pass returns `false` and
the previously published tree is retained — refuting "conversion succeeds
whenever no Composite remains". -/
theorem claim5_counterexample :
    hasComposite 2 (processWithContext envTrivial 2 appTuple).1.walk_result = false ∧
    (processWithContext envTrivial 2 appTuple).2 = false ∧
    (processWithContext envTrivial 2 appTuple).1.rendered_tree = payloadText :=
  ⟨rfl, rfl, rfl⟩

/-- Claim C5 amended: conversion of the reconciled tree fails exactly when
an unresolved Composite or a Tuple node remains in it (tuples are never
reconciled and have no frozen representation); on failure the pass returns
`false` and the previously published frozen tree is retained unchanged; on
success the pass returns `true` and publishes the teleported conversion —
a partially converted tree is never published. -/
theorem claim5_conversion_contract (env : Env) (fuel : Nat) (app : App)
    (hrun : passRuns app = true) :
    (widgetNodeToUnit fuel (processWithContext env fuel app).1.walk_result = none ↔
      (hasComposite fuel (processWithContext env fuel app).1.walk_result ||
        hasTuple fuel (processWithContext env fuel app).1.walk_result) = true)
    ∧ (widgetNodeToUnit fuel (processWithContext env fuel app).1.walk_result = none →
        (processWithContext env fuel app).2 = false ∧
        (processWithContext env fuel app).1.rendered_tree = app.rendered_tree)
    ∧ (∀ t, widgetNodeToUnit fuel (processWithContext env fuel app).1.walk_result = some t →
        (processWithContext env fuel app).2 = true ∧
        (processWithContext env fuel app).1.rendered_tree = teleportPortals fuel t) := by
  have hw := processWithContext_walk_result env fuel app hrun
  refine ⟨widgetNodeToUnit_eq_none_iff fuel _, ?_, ?_⟩
  · intro h
    rw [hw] at h
    unfold processWithContext
    simp only [hrun, if_true, h]
    simp [passApp, clearedApp]
  · intro t ht
    rw [hw] at ht
    unfold processWithContext
    simp only [hrun, if_true, ht]
    simp

/-- Witness for the amended C5 at a concrete input: the tuple-tree fixture's
conversion fails, so the pass reports no change and keeps the previous
frozen tree. -/
theorem claim5_witness :
    (processWithContext envTrivial 2 appTuple).2 = false ∧
    (processWithContext envTrivial 2 appTuple).1.rendered_tree =
      appTuple.rendered_tree :=
  (claim5_conversion_contract envTrivial 2 appTuple rfl).2.1 rfl

/-! ## Walk invariants

Facts about a single reconciliation walk, relating the pass state before and
after processing a subtree: the used-identity list and the drain log only
grow; new-states entries only appear for identities used by the walk, always
hold the default state, and only for identities absent from the pass state
snapshot; the unmount-closure store and the in-pass message store are
untouched at identities the walk never visits; a pre-walk message batch of a
visited identity is drained into the drain log; and every used identity has
an entry in the state snapshot or in the new-states store. -/

structure WalkInv (states : List (WidgetId × Props)) (st st' : PassSt) : Prop where
  used_mono : ∃ Δ, st'.used_ids = st.used_ids ++ Δ
  drain_mono : ∃ Δ, st'.drain_log = st.drain_log ++ Δ
  ns_lookup : ∀ id p, lookupAL st'.new_states id = some p →
    lookupAL st.new_states id = some p ∨
      (p = defaultProps ∧ st'.used_ids.contains id = true)
  ns_keys : ∀ id, (lookupAL st.new_states id).isSome →
    (lookupAL st'.new_states id).isSome
  ns_disjoint : ∀ id, (lookupAL st'.new_states id).isSome →
    (lookupAL st.new_states id).isSome ∨ lookupAL states id = none
  ns_nodup : (st.new_states.map Prod.fst).Nodup →
    (st'.new_states.map Prod.fst).Nodup
  closures_stable : ∀ id, st'.used_ids.contains id = false →
    lookupAL st'.unmount_closures id = lookupAL st.unmount_closures id
  msgs_stable : ∀ id, st'.used_ids.contains id = false →
    lookupAL st'.messages id = lookupAL st.messages id
  drained : ∀ id ms, lookupAL st.messages id = some ms →
    st'.used_ids.contains id = true →
    st.used_ids.contains id = true ∨ (id, ms) ∈ st'.drain_log
  coverage : ∀ id, st'.used_ids.contains id = true →
    st.used_ids.contains id = true ∨ (lookupAL states id).isSome ∨
      (lookupAL st'.new_states id).isSome

theorem walkInv_refl (states : List (WidgetId × Props)) (st : PassSt) :
    WalkInv states st st where
  used_mono := ⟨[], by simp⟩
  drain_mono := ⟨[], by simp⟩
  ns_lookup := fun id p h => Or.inl h
  ns_keys := fun id h => h
  ns_disjoint := fun id h => Or.inl h
  ns_nodup := fun h => h
  closures_stable := fun id _ => rfl
  msgs_stable := fun id _ => rfl
  drained := fun id ms _ h => Or.inl h
  coverage := fun id h => Or.inl h

theorem contains_of_prefix {Δ : List WidgetId} {l l' : List WidgetId} {id : WidgetId}
    (happ : l' = l ++ Δ) (h : l'.contains id = false) : l.contains id = false := by
  subst happ
  cases hc : List.contains l id
  · rfl
  · have hmem : id ∈ l := by simpa using hc
    have hx : (l ++ Δ).contains id = true := by
      simpa using List.mem_append_left Δ hmem
    rw [hx] at h
    cases h

theorem contains_mono {Δ : List WidgetId} {l l' : List WidgetId} {id : WidgetId}
    (happ : l' = l ++ Δ) (h : l.contains id = true) : l'.contains id = true := by
  subst happ
  have hmem : id ∈ l := by simpa using h
  simpa using List.mem_append_left Δ hmem

theorem mem_of_append_left {A : Type} {l Δ : List A} {x : A} (h : x ∈ l) :
    x ∈ l ++ Δ := List.mem_append_left Δ h

theorem walkInv_trans {states : List (WidgetId × Props)} {st1 st2 st3 : PassSt}
    (h12 : WalkInv states st1 st2) (h23 : WalkInv states st2 st3) :
    WalkInv states st1 st3 where
  used_mono := by
    obtain ⟨d1, e1⟩ := h12.used_mono
    obtain ⟨d2, e2⟩ := h23.used_mono
    exact ⟨d1 ++ d2, by rw [e2, e1, List.append_assoc]⟩
  drain_mono := by
    obtain ⟨d1, e1⟩ := h12.drain_mono
    obtain ⟨d2, e2⟩ := h23.drain_mono
    exact ⟨d1 ++ d2, by rw [e2, e1, List.append_assoc]⟩
  ns_lookup := by
    intro id p h
    rcases h23.ns_lookup id p h with h2 | ⟨hp, hu⟩
    · rcases h12.ns_lookup id p h2 with h1 | ⟨hp, hu⟩
      · exact Or.inl h1
      · obtain ⟨d2, e2⟩ := h23.used_mono
        exact Or.inr ⟨hp, contains_mono e2 hu⟩
    · exact Or.inr ⟨hp, hu⟩
  ns_keys := fun id h => h23.ns_keys id (h12.ns_keys id h)
  ns_disjoint := by
    intro id h
    rcases h23.ns_disjoint id h with h2 | hn
    · exact h12.ns_disjoint id h2
    · exact Or.inr hn
  ns_nodup := fun h => h23.ns_nodup (h12.ns_nodup h)
  closures_stable := by
    intro id h
    obtain ⟨d2, e2⟩ := h23.used_mono
    have h2 := contains_of_prefix e2 h
    rw [h23.closures_stable id h, h12.closures_stable id h2]
  msgs_stable := by
    intro id h
    obtain ⟨d2, e2⟩ := h23.used_mono
    have h2 := contains_of_prefix e2 h
    rw [h23.msgs_stable id h, h12.msgs_stable id h2]
  drained := by
    intro id ms hm hu
    obtain ⟨d2, e2⟩ := h23.drain_mono
    by_cases h2 : st2.used_ids.contains id = true
    · rcases h12.drained id ms hm h2 with h1 | hd
      · exact Or.inl h1
      · exact Or.inr (e2 ▸ mem_of_append_left hd)
    · have h2f : st2.used_ids.contains id = false := by
        cases hc : st2.used_ids.contains id
        · rfl
        · exact absurd hc h2
      have hm2 : lookupAL st2.messages id = some ms := by
        rw [h12.msgs_stable id h2f]; exact hm
      rcases h23.drained id ms hm2 hu with h1 | hd
      · exact absurd h1 h2
      · exact Or.inr hd
  coverage := by
    intro id hu
    rcases h23.coverage id hu with h2 | hs | hn
    · rcases h12.coverage id h2 with h1 | hs | hn
      · exact Or.inl h1
      · exact Or.inr (Or.inl hs)
      · exact Or.inr (Or.inr (h23.ns_keys id hn))
    · exact Or.inr (Or.inl hs)
    · exact Or.inr (Or.inr hn)

theorem walkInv_untouched (states : List (WidgetId × Props)) (st st' : PassSt)
    (hu : st'.used_ids = st.used_ids) (hd : st'.drain_log = st.drain_log)
    (hn : st'.new_states = st.new_states)
    (hc : st'.unmount_closures = st.unmount_closures)
    (hm : st'.messages = st.messages) : WalkInv states st st' where
  used_mono := ⟨[], by simp [hu]⟩
  drain_mono := ⟨[], by simp [hd]⟩
  ns_lookup := fun id p h => Or.inl (hn ▸ h)
  ns_keys := fun id h => hn ▸ h
  ns_disjoint := fun id h => Or.inl (hn ▸ h)
  ns_nodup := fun h => hn ▸ h
  closures_stable := fun id _ => by rw [hc]
  msgs_stable := fun id _ => by rw [hm]
  drained := fun id ms _ h => Or.inl (hu ▸ h)
  coverage := fun id h => Or.inl (hu ▸ h)

theorem keys_insertAL {κ α : Type} [DecidableEq κ]
    (l : List (κ × α)) (k : κ) (v : α) (x : κ)
    (h : x ∈ (insertAL l k v).map Prod.fst) : x ∈ l.map Prod.fst ∨ x = k := by
  induction l with
  | nil => simpa [insertAL] using h
  | cons e rest ih =>
    by_cases he : e.1 = k
    · simp only [insertAL, if_pos he, List.map_cons, List.mem_cons] at h
      rcases h with h | h
      · exact Or.inr h
      · exact Or.inl (by simp [h])
    · simp only [insertAL, if_neg he, List.map_cons, List.mem_cons] at h
      rcases h with h | h
      · exact Or.inl (by simp [h])
      · rcases ih h with h1 | h2
        · exact Or.inl (by simp [h1])
        · exact Or.inr h2

theorem insertAL_keys_nodup {κ α : Type} [DecidableEq κ]
    (l : List (κ × α)) (k : κ) (v : α)
    (h : (l.map Prod.fst).Nodup) : ((insertAL l k v).map Prod.fst).Nodup := by
  induction l with
  | nil => simp [insertAL]
  | cons e rest ih =>
    simp only [List.map_cons, List.nodup_cons] at h
    by_cases he : e.1 = k
    · simp only [insertAL, if_pos he, List.map_cons, List.nodup_cons]
      exact ⟨he ▸ h.1, h.2⟩
    · simp only [insertAL, if_neg he, List.map_cons, List.nodup_cons]
      refine ⟨fun hmem => ?_, ih h.2⟩
      rcases keys_insertAL rest k v e.1 hmem with h1 | h2
      · exact h.1 h1
      · exact he h2

theorem walkInv_step_visit (states : List (WidgetId × Props)) (st st' : PassSt)
    (id : WidgetId)
    (hu : st'.used_ids = st.used_ids ++ [id])
    (hd : st'.drain_log = st.drain_log ++ [(id, (lookupAL st.messages id).getD [])])
    (hm : st'.messages = removeAL st.messages id)
    (hn : st'.new_states = st.new_states)
    (hc : st'.unmount_closures = st.unmount_closures)
    (hcov : (lookupAL states id).isSome) : WalkInv states st st' where
  used_mono := ⟨[id], hu⟩
  drain_mono := ⟨[(id, (lookupAL st.messages id).getD [])], hd⟩
  ns_lookup := fun id' p h => Or.inl (hn ▸ h)
  ns_keys := fun id' h => hn ▸ h
  ns_disjoint := fun id' h => Or.inl (hn ▸ h)
  ns_nodup := fun h => hn ▸ h
  closures_stable := fun id' _ => by rw [hc]
  msgs_stable := by
    intro id' h
    rw [hu] at h
    have hne : id' ≠ id := by
      intro hh
      subst hh
      have : id' ∈ st.used_ids ++ [id'] := by simp
      rw [show List.contains (st.used_ids ++ [id']) id' = true by simp] at h
      cases h
    rw [hm, lookupAL_remove_ne st.messages id id' hne]
  drained := by
    intro id' ms hmsg husd
    rw [hu] at husd
    have : id' ∈ st.used_ids ++ [id] := by simpa using husd
    rcases List.mem_append.mp this with h1 | h2
    · exact Or.inl (by simpa using h1)
    · have : id' = id := by simpa using h2
      subst this
      right
      rw [hd, hmsg]
      simp
  coverage := by
    intro id' husd
    rw [hu] at husd
    have : id' ∈ st.used_ids ++ [id] := by simpa using husd
    rcases List.mem_append.mp this with h1 | h2
    · exact Or.inl (by simpa using h1)
    · have : id' = id := by simpa using h2
      subst this
      exact Or.inr (Or.inl hcov)

theorem walkInv_step_visit_mount (states : List (WidgetId × Props)) (st st' : PassSt)
    (id : WidgetId)
    (hu : st'.used_ids = st.used_ids ++ [id])
    (hd : st'.drain_log = st.drain_log ++ [(id, (lookupAL st.messages id).getD [])])
    (hm : st'.messages = removeAL st.messages id)
    (hn : st'.new_states = insertAL st.new_states id defaultProps)
    (hc : st'.unmount_closures = st.unmount_closures)
    (hcov : lookupAL states id = none) : WalkInv states st st' where
  used_mono := ⟨[id], hu⟩
  drain_mono := ⟨[(id, (lookupAL st.messages id).getD [])], hd⟩
  ns_lookup := by
    intro id' p h
    rw [hn] at h
    by_cases he : id' = id
    · subst he
      rw [lookupAL_insert_self] at h
      right
      refine ⟨(Option.some.injEq _ _ ▸ h).symm, ?_⟩
      rw [hu]
      simp
    · rw [lookupAL_insert_ne _ _ _ _ he] at h
      exact Or.inl h
  ns_keys := by
    intro id' h
    rw [hn]
    exact lookupAL_insert_isSome _ _ _ _ h
  ns_disjoint := by
    intro id' h
    by_cases he : id' = id
    · subst he
      exact Or.inr hcov
    · rw [hn, lookupAL_insert_ne _ _ _ _ he] at h
      exact Or.inl h
  ns_nodup := fun h => hn ▸ insertAL_keys_nodup _ _ _ h
  closures_stable := fun id' _ => by rw [hc]
  msgs_stable := by
    intro id' h
    rw [hu] at h
    have hne : id' ≠ id := by
      intro hh
      subst hh
      have : id' ∈ st.used_ids ++ [id'] := by simp
      rw [show List.contains (st.used_ids ++ [id']) id' = true by simp] at h
      cases h
    rw [hm, lookupAL_remove_ne st.messages id id' hne]
  drained := by
    intro id' ms hmsg husd
    rw [hu] at husd
    have : id' ∈ st.used_ids ++ [id] := by simpa using husd
    rcases List.mem_append.mp this with h1 | h2
    · exact Or.inl (by simpa using h1)
    · have : id' = id := by simpa using h2
      subst this
      right
      rw [hd, hmsg]
      simp
  coverage := by
    intro id' husd
    rw [hu] at husd
    have : id' ∈ st.used_ids ++ [id] := by simpa using husd
    rcases List.mem_append.mp this with h1 | h2
    · exact Or.inl (by simpa using h1)
    · have : id' = id := by simpa using h2
      subst this
      right
      right
      rw [hn, lookupAL_insert_self]
      rfl

theorem walkInv_closures_insert (states : List (WidgetId × Props)) (st : PassSt)
    (id : WidgetId) (cl : List UnmountFn)
    (hid : st.used_ids.contains id = true) :
    WalkInv states st
      { st with unmount_closures := insertAL st.unmount_closures id cl } where
  used_mono := ⟨[], by simp⟩
  drain_mono := ⟨[], by simp⟩
  ns_lookup := fun id' p h => Or.inl h
  ns_keys := fun id' h => h
  ns_disjoint := fun id' h => Or.inl h
  ns_nodup := fun h => h
  closures_stable := by
    intro id' h
    have hne : id' ≠ id := fun hh => by rw [hh, hid] at h; cases h
    exact lookupAL_insert_ne _ _ _ _ hne
  msgs_stable := fun id' _ => rfl
  drained := fun id' ms _ h => Or.inl h
  coverage := fun id' h => Or.inl h

theorem walkInv_componentFinish (states : List (WidgetId × Props))
    (rec : WidgetNode → List String → String → Option Props → PassSt →
      WidgetNode × PassSt)
    (id : WidgetId) (path1 : List String) (pk : String) (out : ProcOut)
    (couts : List CallbackOut) (st : PassSt)
    (hid : st.used_ids.contains id = true)
    (hrec : ∀ n p k sh s, WalkInv states s (rec n p k sh s).2) :
    WalkInv states st (componentFinish rec id path1 pk out couts st).2 := by
  unfold componentFinish
  by_cases hemp : out.unmount.isEmpty <;> simp only [hemp, if_true, if_false]
  · have h1 : WalkInv states st
        { st with animators := (applyAnimUpdates id st.animators
            (out.anim_updates ++ couts.foldl (fun a (c : CallbackOut) => a ++ c.anim_updates) [])) } :=
      walkInv_untouched states _ _ rfl rfl rfl rfl rfl
    have h2 := hrec out.node path1 pk (some out.shared_props)
        { st with animators := (applyAnimUpdates id st.animators
            (out.anim_updates ++ couts.foldl (fun a (c : CallbackOut) => a ++ c.anim_updates) [])) }
    have h3 := walkInv_untouched states
        (rec out.node path1 pk (some out.shared_props)
          { st with animators := (applyAnimUpdates id st.animators
              (out.anim_updates ++ couts.foldl (fun a (c : CallbackOut) => a ++ c.anim_updates) [])) }).2
        { (rec out.node path1 pk (some out.shared_props)
            { st with animators := (applyAnimUpdates id st.animators
                (out.anim_updates ++ couts.foldl (fun a (c : CallbackOut) => a ++ c.anim_updates) [])) }).2 with
          state_changes :=
            ((out.state_updates ++ couts.foldl (fun a (c : CallbackOut) => a ++ c.state_updates) []).foldl
              (fun m d => insertAL m id d)
              (rec out.node path1 pk (some out.shared_props)
                { st with animators := (applyAnimUpdates id st.animators
                    (out.anim_updates ++
                      couts.foldl (fun a (c : CallbackOut) => a ++ c.anim_updates) [])) }).2.state_changes) }
        rfl rfl rfl rfl rfl
    exact walkInv_trans (walkInv_trans h1 h2) h3
  · have h0 : WalkInv states st
        { st with unmount_closures := insertAL st.unmount_closures id out.unmount } :=
      walkInv_closures_insert states st id out.unmount hid
    have h1 : WalkInv states
        { st with unmount_closures := insertAL st.unmount_closures id out.unmount }
        { st with
          unmount_closures := insertAL st.unmount_closures id out.unmount
          animators := (applyAnimUpdates id st.animators
            (out.anim_updates ++ couts.foldl (fun a (c : CallbackOut) => a ++ c.anim_updates) [])) } :=
      walkInv_untouched states _ _ rfl rfl rfl rfl rfl
    have h2 := hrec out.node path1 pk (some out.shared_props)
        { st with
          unmount_closures := insertAL st.unmount_closures id out.unmount
          animators := (applyAnimUpdates id st.animators
            (out.anim_updates ++ couts.foldl (fun a (c : CallbackOut) => a ++ c.anim_updates) [])) }
    have h3 := walkInv_untouched states
        (rec out.node path1 pk (some out.shared_props)
          { st with
            unmount_closures := insertAL st.unmount_closures id out.unmount
            animators := (applyAnimUpdates id st.animators
              (out.anim_updates ++ couts.foldl (fun a (c : CallbackOut) => a ++ c.anim_updates) [])) }).2
        { (rec out.node path1 pk (some out.shared_props)
            { st with
              unmount_closures := insertAL st.unmount_closures id out.unmount
              animators := (applyAnimUpdates id st.animators
                (out.anim_updates ++ couts.foldl (fun a (c : CallbackOut) => a ++ c.anim_updates) [])) }).2 with
          state_changes :=
            ((out.state_updates ++ couts.foldl (fun a (c : CallbackOut) => a ++ c.state_updates) []).foldl
              (fun m d => insertAL m id d)
              (rec out.node path1 pk (some out.shared_props)
                { st with
                  unmount_closures := insertAL st.unmount_closures id out.unmount
                  animators := (applyAnimUpdates id st.animators
                    (out.anim_updates ++
                      couts.foldl (fun a (c : CallbackOut) => a ++ c.anim_updates) [])) }).2.state_changes) }
        rfl rfl rfl rfl rfl
    exact walkInv_trans (walkInv_trans (walkInv_trans h0 h1) h2) h3

theorem walkInv_walkItems {A : Type} (states : List (WidgetId × Props))
    (getSlot : A → WidgetNode) (reb : A → WidgetNode → A)
    (f : WidgetNode → String → PassSt → WidgetNode × PassSt)
    (hf : ∀ n k s, WalkInv states s (f n k s).2) :
    ∀ (l : List (Nat × A)) (st : PassSt),
      WalkInv states st (walkItems getSlot reb f l st).2 := by
  intro l
  induction l with
  | nil => intro st; exact walkInv_refl states st
  | cons e rest ih =>
    intro st
    simp only [walkItems]
    exact walkInv_trans (hf _ _ _) (ih _)

theorem walkInv_component_change (states : List (WidgetId × Props))
    (rec : WidgetNode → List String → String → Option Props → PassSt →
      WidgetNode × PassSt)
    (id : WidgetId) (path1 : List String) (pk : String) (out : ProcOut)
    (couts : List CallbackOut) (st stC : PassSt)
    (hu : stC.used_ids = st.used_ids ++ [id])
    (hd : stC.drain_log = st.drain_log ++ [(id, (lookupAL st.messages id).getD [])])
    (hm : stC.messages = removeAL st.messages id)
    (hn : stC.new_states = st.new_states)
    (hc : stC.unmount_closures = st.unmount_closures)
    (hcov : (lookupAL states id).isSome)
    (hrec : ∀ n p k sh s, WalkInv states s (rec n p k sh s).2) :
    WalkInv states st (componentFinish rec id path1 pk out couts stC).2 :=
  walkInv_trans (walkInv_step_visit states st stC id hu hd hm hn hc hcov)
    (walkInv_componentFinish states rec id path1 pk out couts stC
      (by rw [hu]; simp) hrec)

theorem walkInv_component_mount (states : List (WidgetId × Props))
    (rec : WidgetNode → List String → String → Option Props → PassSt →
      WidgetNode × PassSt)
    (id : WidgetId) (path1 : List String) (pk : String) (out : ProcOut)
    (couts : List CallbackOut) (st stC : PassSt)
    (hu : stC.used_ids = st.used_ids ++ [id])
    (hd : stC.drain_log = st.drain_log ++ [(id, (lookupAL st.messages id).getD [])])
    (hm : stC.messages = removeAL st.messages id)
    (hn : stC.new_states = insertAL st.new_states id defaultProps)
    (hc : stC.unmount_closures = st.unmount_closures)
    (hcov : lookupAL states id = none)
    (hrec : ∀ n p k sh s, WalkInv states s (rec n p k sh s).2) :
    WalkInv states st (componentFinish rec id path1 pk out couts stC).2 :=
  walkInv_trans (walkInv_step_visit_mount states st stC id hu hd hm hn hc hcov)
    (walkInv_componentFinish states rec id path1 pk out couts stC
      (by rw [hu]; simp) hrec)

/-- Master single-run invariant: every reconciliation walk satisfies
`WalkInv` between its input and output pass state. -/
theorem processNode_walkInv (env : Env) :
    ∀ (fuel : Nat) (states : List (WidgetId × Props)) (node : WidgetNode)
      (path : List String) (pk : String) (sh : Option Props) (st : PassSt),
      WalkInv states st (processNode env fuel states node path pk sh st).2 := by
  intro fuel
  induction fuel with
  | zero =>
    intro states node path pk sh st
    exact walkInv_refl states st
  | succ fuel ih =>
    intro states node path pk sh st
    match node with
    | .wnone => exact walkInv_refl states st
    | .tuple ns => exact walkInv_refl states st
    | .unit u =>
      match u with
      | .nnone => exact walkInv_refl states st
      | .imageBox id => exact walkInv_refl states st
      | .textBox id t => exact walkInv_refl states st
      | .areaBox id slot =>
        simp only [processNode]
        exact ih states slot path "." sh st
      | .sizeBox id slot =>
        simp only [processNode]
        exact ih states slot path "." sh st
      | .portalBox id owner pslot =>
        simp only [processNode]
        exact ih states (portalSlotNodeNode pslot) path "." sh st
      | .contentBox id items =>
        simp only [processNode]
        exact walkInv_walkItems states _ _ _
          (fun n k s => ih states n path k sh s) items.enum st
      | .flexBox id items =>
        simp only [processNode]
        exact walkInv_walkItems states _ _ _
          (fun n k s => ih states n path k sh s) items.enum st
      | .gridBox id items =>
        simp only [processNode]
        exact walkInv_walkItems states _ _ _
          (fun n k s => ih states n path k sh s) items.enum st
    | .component c =>
      match c with
      | .mk proc tn key props shared listed named =>
        simp only [processNode]
        split
        · exact walkInv_component_change states _ _ _ _ _ _ st _
            rfl rfl rfl rfl rfl (by simp_all) (fun n p k sh2 s => ih states n p k sh2 s)
        · exact walkInv_component_mount states _ _ _ _ _ _ st _
            rfl rfl rfl rfl rfl (by assumption) (fun n p k sh2 s => ih states n p k sh2 s)

/-! ## Post-walk pruning lemmas -/

theorem lookupAL_none_of_not_mem_keys {κ α : Type} [DecidableEq κ]
    (l : List (κ × α)) (k : κ) (h : k ∉ l.map Prod.fst) : lookupAL l k = none := by
  induction l with
  | nil => rfl
  | cons e rest ih =>
    simp only [List.map_cons, List.mem_cons] at h
    push_neg at h
    simp only [lookupAL, if_neg (fun hh : e.1 = k => h.1 hh.symm)]
    exact ih h.2

theorem lookupAL_unionAL_nodup {κ α : Type} [DecidableEq κ]
    (overlay : List (κ × α)) (base : List (κ × α)) (k : κ)
    (hnd : (overlay.map Prod.fst).Nodup) :
    lookupAL (unionAL base overlay) k =
      ((lookupAL overlay k).orElse (fun _ => lookupAL base k)) := by
  induction overlay generalizing base with
  | nil => simp [unionAL, lookupAL, Option.orElse]
  | cons e o ih =>
    simp only [List.map_cons, List.nodup_cons] at hnd
    have hstep : unionAL base (e :: o) = unionAL (insertAL base e.1 e.2) o := rfl
    rw [hstep, ih _ hnd.2]
    by_cases hk : e.1 = k
    · subst hk
      have ho : lookupAL o e.1 = none :=
        lookupAL_none_of_not_mem_keys o e.1 hnd.1
      rw [ho, lookupAL_insert_self]
      simp [lookupAL, Option.orElse]
    · rw [lookupAL_insert_ne base e.1 k e.2 (fun hh => hk hh.symm)]
      simp [lookupAL, hk, Option.orElse]

theorem filter_map_const_key_ne {α : Type} (l : List α) (k id : WidgetId)
    (x : Props) (h : k ≠ id) :
    (l.map (fun _ => (k, x))).filter (fun e => e.1 == id) = [] := by
  induction l with
  | nil => rfl
  | cons a rest ih =>
    simp only [List.map_cons, List.filter_cons]
    have : ((k, x).1 == id) = false := by
      simp [h]
    rw [this]
    exact ih

theorem filter_map_const_key_self {α : Type} (l : List α) (id : WidgetId)
    (x : Props) :
    (l.map (fun _ => (id, x))).filter (fun e => e.1 == id) =
      l.map (fun _ => (id, x)) := by
  induction l with
  | nil => rfl
  | cons a rest ih =>
    simp only [List.map_cons, List.filter_cons]
    simp [ih]

theorem pruneDrop_states (acc : PruneAcc) (e : WidgetId × Props) :
    (pruneDrop acc e).states = acc.states := rfl

theorem pruneDrop_log (acc : PruneAcc) (e : WidgetId × Props) :
    (pruneDrop acc e).unmount_log =
      acc.unmount_log ++
        ((lookupAL acc.unmount_closures e.1).getD []).map (fun _ => (e.1, e.2)) := rfl

theorem pruneDrop_closures_self (acc : PruneAcc) (e : WidgetId × Props) :
    lookupAL (pruneDrop acc e).unmount_closures e.1 = none :=
  lookupAL_remove_self _ _

theorem pruneDrop_animators_self (acc : PruneAcc) (e : WidgetId × Props) :
    lookupAL (pruneDrop acc e).animators e.1 = none :=
  lookupAL_remove_self _ _

theorem pruneDrop_closures_ne (acc : PruneAcc) (e : WidgetId × Props)
    (id : WidgetId) (h : id ≠ e.1) :
    lookupAL (pruneDrop acc e).unmount_closures id =
      lookupAL acc.unmount_closures id :=
  lookupAL_remove_ne _ _ _ h

theorem pruneDrop_animators_ne (acc : PruneAcc) (e : WidgetId × Props)
    (id : WidgetId) (h : id ≠ e.1) :
    lookupAL (pruneDrop acc e).animators id = lookupAL acc.animators id :=
  lookupAL_remove_ne _ _ _ h

theorem pruneFold_preserve (input : List (WidgetId × Props))
    (used : List WidgetId) (id : WidgetId)
    (hused : used.contains id = false) :
    ∀ (acc : PruneAcc),
    lookupAL acc.states id = none →
    lookupAL acc.animators id = none →
    lookupAL acc.unmount_closures id = none →
    lookupAL (input.foldl (pruneStep used) acc).states id = none ∧
    lookupAL (input.foldl (pruneStep used) acc).animators id = none ∧
    lookupAL (input.foldl (pruneStep used) acc).unmount_closures id = none ∧
    (input.foldl (pruneStep used) acc).unmount_log.filter (fun e => e.1 == id) =
      acc.unmount_log.filter (fun e => e.1 == id) := by
  induction input with
  | nil => exact fun acc hs ha hc => ⟨hs, ha, hc, rfl⟩
  | cons e rest ih =>
    intro acc hs ha hc
    simp only [List.foldl_cons]
    by_cases hk : used.contains e.1
    · have hne : e.1 ≠ id := fun hh => by rw [hh, hused] at hk; cases hk
      have hmem : e.1 ∈ used := by simpa using hk
      have hstep : pruneStep used acc e = { acc with states := acc.states ++ [e] } := by
        simp [pruneStep, hmem]
      rw [hstep]
      refine ih _ ?_ ha hc
      rw [lookupAL_append, hs]
      simp [lookupAL, hne, Option.orElse]
    · have hnmem : e.1 ∉ used := by simpa using hk
      have hstep : pruneStep used acc e = pruneDrop acc e := by
        simp [pruneStep, hnmem]
      rw [hstep]
      by_cases hne : id = e.1
      · subst hne
        obtain ⟨r1, r2, r3, r4⟩ := ih (pruneDrop acc e)
          (by rw [pruneDrop_states]; exact hs)
          (pruneDrop_animators_self acc e)
          (pruneDrop_closures_self acc e)
        refine ⟨r1, r2, r3, ?_⟩
        rw [r4, pruneDrop_log, List.filter_append, hc]
        simp
      · obtain ⟨r1, r2, r3, r4⟩ := ih (pruneDrop acc e)
          (by rw [pruneDrop_states]; exact hs)
          (by rw [pruneDrop_animators_ne acc e id hne]; exact ha)
          (by rw [pruneDrop_closures_ne acc e id hne]; exact hc)
        refine ⟨r1, r2, r3, ?_⟩
        rw [r4, pruneDrop_log, List.filter_append,
          filter_map_const_key_ne _ _ _ _ (fun hh => hne hh.symm)]
        simp

theorem pruneFold_unused (input : List (WidgetId × Props)) (used : List WidgetId)
    (id : WidgetId) (v : Props) (hused : used.contains id = false) :
    ∀ (acc : PruneAcc),
    lookupAL input id = some v →
    lookupAL acc.states id = none →
    lookupAL (input.foldl (pruneStep used) acc).states id = none ∧
    lookupAL (input.foldl (pruneStep used) acc).animators id = none ∧
    lookupAL (input.foldl (pruneStep used) acc).unmount_closures id = none ∧
    (input.foldl (pruneStep used) acc).unmount_log.filter (fun e => e.1 == id) =
      acc.unmount_log.filter (fun e => e.1 == id) ++
        ((lookupAL acc.unmount_closures id).getD []).map (fun _ => (id, v)) := by
  induction input with
  | nil => intro acc h; cases h
  | cons e rest ih =>
    intro acc hlk hs
    simp only [List.foldl_cons]
    by_cases he : e.1 = id
    · have hv : e.2 = v := by
        simp only [lookupAL, if_pos he] at hlk
        injection hlk
      have hkf : e.1 ∉ used := by
        rw [he]
        simpa using hused
      have hstep : pruneStep used acc e = pruneDrop acc e := by
        simp [pruneStep, hkf]
      rw [hstep]
      have ha2 : lookupAL (pruneDrop acc e).animators id = none := by
        rw [← he]; exact pruneDrop_animators_self acc e
      have hc2 : lookupAL (pruneDrop acc e).unmount_closures id = none := by
        rw [← he]; exact pruneDrop_closures_self acc e
      obtain ⟨r1, r2, r3, r4⟩ := pruneFold_preserve rest used id hused (pruneDrop acc e)
        (by rw [pruneDrop_states]; exact hs) ha2 hc2
      refine ⟨r1, r2, r3, ?_⟩
      rw [r4, pruneDrop_log, List.filter_append, he, hv]
      rw [filter_map_const_key_self]
    · have hlk2 : lookupAL rest id = some v := by
        simpa [lookupAL, he] using hlk
      have hne : id ≠ e.1 := fun hh => he hh.symm
      by_cases hk : e.1 ∈ used
      · have hstep : pruneStep used acc e = { acc with states := acc.states ++ [e] } := by
          simp [pruneStep, hk]
        rw [hstep]
        refine ih _ hlk2 ?_
        rw [lookupAL_append, hs]
        simp [lookupAL, he, Option.orElse]
      · have hstep : pruneStep used acc e = pruneDrop acc e := by
          simp [pruneStep, hk]
        rw [hstep]
        obtain ⟨r1, r2, r3, r4⟩ := ih (pruneDrop acc e) hlk2
          (by rw [pruneDrop_states]; exact hs)
        refine ⟨r1, r2, r3, ?_⟩
        rw [r4, pruneDrop_log, List.filter_append,
          filter_map_const_key_ne _ _ _ _ (fun hh => hne hh.symm),
          pruneDrop_closures_ne acc e id hne]
        simp

theorem pruneFold_used_lookup (input : List (WidgetId × Props))
    (used : List WidgetId) (id : WidgetId) (hused : used.contains id = true) :
    ∀ acc : PruneAcc,
    lookupAL (input.foldl (pruneStep used) acc).states id =
      ((lookupAL acc.states id).orElse (fun _ => lookupAL input id)) := by
  induction input with
  | nil =>
    intro acc
    cases h : lookupAL acc.states id <;> simp [lookupAL, h, Option.orElse]
  | cons e rest ih =>
    intro acc
    simp only [List.foldl_cons]
    by_cases hk : e.1 ∈ used
    · have hstep : pruneStep used acc e = { acc with states := acc.states ++ [e] } := by
        simp [pruneStep, hk]
      rw [hstep, ih]
      rw [show ({ acc with states := acc.states ++ [e] } : PruneAcc).states
        = acc.states ++ [e] from rfl, lookupAL_append]
      cases h1 : lookupAL acc.states id <;> by_cases he : e.1 = id <;>
        simp [lookupAL, he, h1, Option.orElse]
    · have hne : e.1 ≠ id := fun hh => by
        subst hh
        exact hk (by simpa using hused)
      have hstep : pruneStep used acc e = pruneDrop acc e := by
        simp [pruneStep, hk]
      rw [hstep, ih, pruneDrop_states]
      cases h1 : lookupAL acc.states id <;> simp [lookupAL, hne, h1, Option.orElse]

theorem lookupAL_none_iff_not_mem_keys {κ α : Type} [DecidableEq κ]
    (l : List (κ × α)) (k : κ) : lookupAL l k = none ↔ k ∉ l.map Prod.fst := by
  constructor
  · intro h hmem
    induction l with
    | nil => simp at hmem
    | cons e rest ih =>
      simp only [List.map_cons, List.mem_cons] at hmem
      by_cases he : e.1 = k
      · simp [lookupAL, he] at h
      · rcases hmem with h1 | h2
        · exact he h1.symm
        · exact ih (by simpa [lookupAL, he] using h) h2
  · exact lookupAL_none_of_not_mem_keys l k

theorem unionAL_lookup_overlay_none {κ α : Type} [DecidableEq κ]
    (overlay : List (κ × α)) (base : List (κ × α)) (k : κ)
    (h : lookupAL overlay k = none) :
    lookupAL (unionAL base overlay) k = lookupAL base k := by
  induction overlay generalizing base with
  | nil => rfl
  | cons e o ih =>
    have he : e.1 ≠ k := by
      intro hh
      simp [lookupAL, hh] at h
    have ho : lookupAL o k = none := by
      simpa [lookupAL, he] using h
    have hstep : unionAL base (e :: o) = unionAL (insertAL base e.1 e.2) o := rfl
    rw [hstep, ih _ ho, lookupAL_insert_ne base e.1 k e.2 (fun hh => he hh.symm)]

theorem processWithContext_app_eq (env : Env) (fuel : Nat) (app : App)
    (hrun : passRuns app = true) :
    (processWithContext env fuel app).1 =
      { passApp env fuel app with
        rendered_tree := (processWithContext env fuel app).1.rendered_tree } := by
  unfold processWithContext
  simp only [hrun, if_true]
  cases hc : widgetNodeToUnit fuel (passWalk env fuel app).1 <;> simp

/-- Core pruning fact shared by several claims: after a pass that runs, an
identity that had a state entry in the merged start-of-pass snapshot but was
not used by the walk loses its state, animation and unmount-closure entries,
and its unmount log records exactly one invocation per closure registered
against it before the pass, each carrying its last-known state. -/
theorem processWithContext_pruned (env : Env) (fuel : Nat) (app : App)
    (id : WidgetId) (v : Props)
    (hrun : passRuns app = true)
    (hv : lookupAL (mergedStates app) id = some v)
    (hunused : (processWithContext env fuel app).1.used_ids.contains id = false) :
    lookupAL (processWithContext env fuel app).1.states id = none ∧
    lookupAL (processWithContext env fuel app).1.animators id = none ∧
    lookupAL (processWithContext env fuel app).1.unmount_closures id = none ∧
    (processWithContext env fuel app).1.unmount_log.filter (fun e => e.1 == id) =
      ((lookupAL app.unmount_closures id).getD []).map (fun _ => (id, v)) := by
  have happ := processWithContext_app_eq env fuel app hrun
  have hinv : WalkInv (mergedStates app) (passInitSt env app)
      (passWalk env fuel app).2 :=
    processNode_walkInv env fuel (mergedStates app) app.tree [] "<*>"
      none (passInitSt env app)
  have hused1 : (passWalk env fuel app).2.used_ids.contains id = false := by
    rw [happ] at hunused
    simpa [passApp] using hunused
  have hclos : lookupAL (passWalk env fuel app).2.unmount_closures id =
      lookupAL app.unmount_closures id := by
    have := hinv.closures_stable id hused1
    rw [this]
    rfl
  have hns : lookupAL (passWalk env fuel app).2.new_states id = none := by
    cases hx : lookupAL (passWalk env fuel app).2.new_states id with
    | none => rfl
    | some p =>
      rcases hinv.ns_lookup id p hx with h1 | ⟨_, h2⟩
      · simp [passInitSt, lookupAL] at h1
      · rw [h2] at hused1; cases hused1
  have hlk : lookupAL (unionAL (mergedStates app) (passWalk env fuel app).2.new_states)
      id = some v := by
    rw [unionAL_lookup_overlay_none _ _ _ hns]
    exact hv
  obtain ⟨r1, r2, r3, r4⟩ := pruneFold_unused
    (unionAL (mergedStates app) (passWalk env fuel app).2.new_states)
    (passWalk env fuel app).2.used_ids id v hused1
    ⟨[], (passWalk env fuel app).2.animators,
      (passWalk env fuel app).2.unmount_closures,
      (passWalk env fuel app).2.sent_messages,
      (passWalk env fuel app).2.sent_signals, []⟩ hlk rfl
  have hpr : passPrune env fuel app =
      (unionAL (mergedStates app) (passWalk env fuel app).2.new_states).foldl
        (pruneStep (passWalk env fuel app).2.used_ids)
        ⟨[], (passWalk env fuel app).2.animators,
          (passWalk env fuel app).2.unmount_closures,
          (passWalk env fuel app).2.sent_messages,
          (passWalk env fuel app).2.sent_signals, []⟩ := rfl
  refine ⟨?_, ?_, ?_, ?_⟩
  · rw [happ]
    show lookupAL (passApp env fuel app).states id = none
    rw [show (passApp env fuel app).states = (passPrune env fuel app).states from rfl,
      hpr]
    exact r1
  · rw [happ]
    show lookupAL (passApp env fuel app).animators id = none
    rw [show (passApp env fuel app).animators =
      (passPrune env fuel app).animators.filter (fun e => e.2.inProgress) from rfl]
    refine lookupAL_filter_none _ _ _ ?_
    rw [hpr]
    exact r2
  · rw [happ]
    show lookupAL (passApp env fuel app).unmount_closures id = none
    rw [show (passApp env fuel app).unmount_closures =
      (passPrune env fuel app).unmount_closures from rfl, hpr]
    exact r3
  · rw [happ]
    show (passApp env fuel app).unmount_log.filter (fun e => e.1 == id) =
      ((lookupAL app.unmount_closures id).getD []).map (fun _ => (id, v))
    rw [show (passApp env fuel app).unmount_log =
      (passPrune env fuel app).unmount_log from rfl, hpr, r4, hclos]
    simp

/-! ## Claim C8 -/

/-- Claim C8: for every identity with a state entry in the merged
start-of-pass snapshot that is not reconciled (not recorded as used) during
a pass that runs: after the pass its State and Animation entries are gone
from the stores, each teardown callback registered against it is invoked
exactly once during the pass — with a context carrying the identity's
last-known state — and the callbacks are then discarded. -/
theorem claim8_stale_pruned_teardown (env : Env) (fuel : Nat) (app : App)
    (id : WidgetId) (v : Props)
    (hrun : passRuns app = true)
    (hv : lookupAL (mergedStates app) id = some v)
    (hunused : (processWithContext env fuel app).1.used_ids.contains id = false) :
    lookupAL (processWithContext env fuel app).1.states id = none ∧
    lookupAL (processWithContext env fuel app).1.animators id = none ∧
    lookupAL (processWithContext env fuel app).1.unmount_closures id = none ∧
    (processWithContext env fuel app).1.unmount_log.filter (fun e => e.1 == id) =
      ((lookupAL app.unmount_closures id).getD []).map (fun _ => (id, v)) :=
  processWithContext_pruned env fuel app id v hrun hv hunused

/-- Identity of the stale (never re-appearing) fixture widget. -/
def staleId : WidgetId := ⟨"s", ["gone"]⟩

/-- A fixture unmount closure that sends one message and one signal. -/
def uFn : UnmountFn := fun _ => ⟨[(mId, 9)], [3]⟩

/-- Fixture: an application holding state, an animation entry and an unmount
closure for an identity that the (empty) tree will not use. -/
def appStale : App := { newApp with
  dirty := true
  states := [(staleId, [("v", 4)])]
  unmount_closures := [(staleId, [uFn])]
  animators := [(staleId, ⟨[("a", ⟨0, true⟩)]⟩)] }

/-- Witness for C8 at a concrete input: the stale identity is pruned, its
single teardown closure fires once with its last-known state. -/
theorem claim8_witness :
    lookupAL (processWithContext envTrivial 2 appStale).1.states staleId = none ∧
    lookupAL (processWithContext envTrivial 2 appStale).1.animators staleId = none ∧
    lookupAL (processWithContext envTrivial 2 appStale).1.unmount_closures staleId
      = none ∧
    (processWithContext envTrivial 2 appStale).1.unmount_log.filter
        (fun e => e.1 == staleId) =
      ((lookupAL appStale.unmount_closures staleId).getD []).map
        (fun _ => (staleId, [("v", 4)])) :=
  claim8_stale_pruned_teardown envTrivial 2 appStale staleId [("v", 4)] rfl rfl rfl

/-! ## Claim C3 -/

/-- Fixture: a used identity whose animation entry has no sub-animation in
progress. -/
def appAnimDone : App := { newApp with
  tree := treeW
  dirty := true
  states := [(cId, [("s", 1)])]
  animators := [(cId, ⟨[("a", ⟨0, false⟩)]⟩)] }

/-- Counterexample to claim C3 as stated: the identity `cId` is used this
pass (its state entry survives and it is recorded as used), yet its
animation entry — whose sub-animations have all completed — is removed at
the end of the pass, refuting "retained as long as its identity was used
this pass". -/
theorem claim3_counterexample :
    (processWithContext envTrivial 2 appAnimDone).1.used_ids.contains cId = true ∧
    lookupAL (processWithContext envTrivial 2 appAnimDone).1.states cId =
      some [("s", 1)] ∧
    lookupAL (processWithContext envTrivial 2 appAnimDone).1.animators cId = none :=
  ⟨rfl, rfl, rfl⟩

/-- Claim C3 amended: after a pass that runs, an animation entry is retained
only while some named sub-animation of it is still in progress (an
all-completed entry is dropped even for a used identity), and an identity
with a start-of-pass state entry that was not re-used this pass loses its
animation entry regardless of progress (teardown removes it). -/
theorem claim3_animator_removal (env : Env) (fuel : Nat) (app : App)
    (hrun : passRuns app = true) :
    (∀ id a, lookupAL (processWithContext env fuel app).1.animators id = some a →
      a.inProgress = true)
    ∧ (∀ id v, lookupAL (mergedStates app) id = some v →
        (processWithContext env fuel app).1.used_ids.contains id = false →
        lookupAL (processWithContext env fuel app).1.animators id = none) := by
  constructor
  · intro id a h
    rw [processWithContext_app_eq env fuel app hrun] at h
    have h2 : lookupAL
        ((passPrune env fuel app).animators.filter (fun e => e.2.inProgress)) id =
        some a := h
    have := lookupAL_filter_prop _ _ _ _ h2
    simpa using this
  · intro id v hv hunused
    exact (processWithContext_pruned env fuel app id v hrun hv hunused).2.1

/-- Fixture: a used identity with an in-progress animation entry. -/
def appAnimLive : App := { newApp with
  tree := treeW
  dirty := true
  states := [(cId, [("s", 1)])]
  animators := [(cId, ⟨[("a", ⟨0, true⟩)]⟩)] }

/-- Witness for the amended C3 at a concrete input: the retained entry of
the live fixture is indeed in progress. -/
theorem claim3_witness :
    AnimatorStates.inProgress ⟨[("a", ⟨0, true⟩)]⟩ = true :=
  (claim3_animator_removal envTrivial 2 appAnimLive rfl).1 cId
    ⟨[("a", ⟨0, true⟩)]⟩ rfl

/-! ## Claim C4 -/

theorem pushMessage_origin (m : List (WidgetId × List Msg)) (id : WidgetId)
    (msg : Msg) (id' : WidgetId) (ms : List Msg) (x : Msg)
    (h : lookupAL (pushMessage m id msg) id' = some ms) (hx : x ∈ ms) :
    (id' = id ∧ x = msg) ∨ (∃ ms0, lookupAL m id' = some ms0 ∧ x ∈ ms0) := by
  unfold pushMessage at h
  cases hlk : lookupAL m id with
  | none =>
    rw [hlk] at h
    rw [lookupAL_append] at h
    cases hlk' : lookupAL m id' with
    | some ms0 =>
      rw [hlk'] at h
      have h2 : some ms0 = some ms := h
      injection h2 with h3
      subst h3
      exact Or.inr ⟨ms0, hlk'.symm ▸ rfl, hx⟩
    | none =>
      rw [hlk'] at h
      have h : lookupAL [(id, [msg])] id' = some ms := h
      by_cases hid : id = id'
      · simp only [lookupAL, hid, if_pos rfl] at h
        injection h with h
        subst h
        simp only [List.mem_singleton] at hx
        exact Or.inl ⟨hid.symm, hx⟩
      · simp [lookupAL, hid] at h
  | some l =>
    rw [hlk] at h
    by_cases hid : id' = id
    · subst hid
      rw [lookupAL_insert_self] at h
      injection h with h
      subst h
      rcases List.mem_append.mp hx with hl | hr
      · exact Or.inr ⟨l, hlk, hl⟩
      · simp only [List.mem_singleton] at hr
        exact Or.inl ⟨rfl, hr⟩
    · rw [lookupAL_insert_ne m id id' _ hid] at h
      exact Or.inr ⟨ms, h, hx⟩

theorem pushFold_origin (sent : List (WidgetId × Msg))
    (m0 : List (WidgetId × List Msg)) (id : WidgetId) (ms : List Msg) (x : Msg)
    (h : lookupAL (sent.foldl (fun m e => pushMessage m e.1 e.2) m0) id = some ms)
    (hx : x ∈ ms) :
    (id, x) ∈ sent ∨ ∃ ms0, lookupAL m0 id = some ms0 ∧ x ∈ ms0 := by
  induction sent generalizing m0 with
  | nil => exact Or.inr ⟨ms, h, hx⟩
  | cons e rest ih =>
    simp only [List.foldl_cons] at h
    rcases ih (pushMessage m0 e.1 e.2) h with hmem | ⟨ms0, hlk, hx0⟩
    · exact Or.inl (List.mem_cons_of_mem e hmem)
    · rcases pushMessage_origin m0 e.1 e.2 id ms0 x hlk hx0 with
        ⟨hid, hxe⟩ | ⟨ms1, hlk1, hx1⟩
      · subst hid
        subst hxe
        exact Or.inl (by simp)
      · exact Or.inr ⟨ms1, hlk1, hx1⟩

/-- Fixture: a queued message addressed to an identity the tree never
produces, in an otherwise dirty application. -/
def appMsgStale : App := { newApp with
  dirty := true
  tree := treeW
  messages := [(mId, [7])] }

/-- Counterexample to claim C4 as stated: a queued message whose addressee
is not invoked during the pass does NOT persist in the message store — the
store is rebuilt from the pass's own channel only, so the pre-pass entry for
`mId` is dropped. -/
theorem claim4_counterexample :
    lookupAL appMsgStale.messages mId = some [7] ∧
    (processWithContext envTrivial 2 appMsgStale).1.used_ids.contains mId
      = false ∧
    (processWithContext envTrivial 2 appMsgStale).1.messages = [] :=
  ⟨rfl, rfl, rfl⟩

/-- Claim C4 amended: in a pass that runs, a queued pre-pass message batch
addressed to an identity that IS invoked this pass is drained and handed to
that component, but the post-pass message store holds only messages sent
during the pass itself — queued messages of uninvoked addressees are
dropped, not persisted. -/
theorem claim4_message_drain (env : Env) (fuel : Nat) (app : App) (id : WidgetId)
    (hrun : passRuns app = true) :
    (∀ ms, lookupAL app.messages id = some ms →
      (processWithContext env fuel app).1.used_ids.contains id = true →
      (id, ms) ∈ (processWithContext env fuel app).1.drain_log)
    ∧ (∀ ms x, lookupAL (processWithContext env fuel app).1.messages id = some ms →
        x ∈ ms → (id, x) ∈ (processWithContext env fuel app).1.pass_sent) := by
  have happ := processWithContext_app_eq env fuel app hrun
  constructor
  · intro ms hmsg hused
    rw [happ] at hused ⊢
    have hu : ({ passApp env fuel app with
        rendered_tree := (processWithContext env fuel app).1.rendered_tree
      }).used_ids = (passWalk env fuel app).2.used_ids := rfl
    rw [hu] at hused
    have hinv : WalkInv (mergedStates app) (passInitSt env app)
        (passWalk env fuel app).2 :=
      processNode_walkInv env fuel (mergedStates app) app.tree [] "<*>"
        none (passInitSt env app)
    have hmsg' : lookupAL (passInitSt env app).messages id = some ms := hmsg
    rcases hinv.drained id ms hmsg' hused with h0 | hdr
    · simp [passInitSt] at h0
    · exact hdr
  · intro ms x hms hx
    rw [happ] at hms ⊢
    have hm : ({ passApp env fuel app with
        rendered_tree := (processWithContext env fuel app).1.rendered_tree
      }).messages = (passPrune env fuel app).sent_messages.foldl
        (fun m e => pushMessage m e.1 e.2) [] := rfl
    rw [hm] at hms
    rcases pushFold_origin (passPrune env fuel app).sent_messages [] id ms x
        hms hx with hmem | ⟨ms0, hlk0, _⟩
    · exact hmem
    · simp [lookupAL] at hlk0

/-- Fixture: a queued message addressed to the identity the tree does
produce. -/
def appMsgUsed : App := { newApp with
  dirty := true
  tree := treeW
  messages := [(cId, [5])] }

/-- Witness for the amended C4 at a concrete input: the queued batch of the
used identity appears in the pass's drain log. -/
theorem claim4_witness :
    (cId, [5]) ∈ (processWithContext envTrivial 2 appMsgUsed).1.drain_log :=
  (claim4_message_drain envTrivial 2 appMsgUsed cId rfl).1 [5] rfl rfl

/-! ## Claim C9

Parallel-run machinery: two reconciliation walks over the same declarative
tree but different state snapshots produce the same expansion, the same
used-identity growth and no mounts in the second run, provided the second
snapshot holds, for every identity the first run uses, exactly the state the
first run left behind (its prior state, or the recorded default for a fresh
mount) and processors do not read their animation state. -/

/-- Snapshot agreement at one identity: the second snapshot stores exactly
what the first run's snapshot held there (or the default it recorded). -/
def agreeAt (S1 S2 : List (WidgetId × Props)) (id : WidgetId) : Prop :=
  lookupAL S2 id = some ((lookupAL S1 id).getD defaultProps)

/-- Relation between one walk step of run 1 (from `st1`) and of run 2 (from
`st2`): equal result nodes, a common used-identity growth, and no run-2
mounts. -/
structure ParOut (st1 st2 : PassSt) (r1 r2 : WidgetNode × PassSt) : Prop where
  node_eq : r2.1 = r1.1
  used : ∃ Δ, r1.2.used_ids = st1.used_ids ++ Δ ∧ r2.2.used_ids = st2.used_ids ++ Δ
  mounts : r2.2.mount_log = st2.mount_log

theorem parOut_id (node : WidgetNode) (st1 st2 : PassSt) :
    ParOut st1 st2 (node, st1) (node, st2) :=
  ⟨rfl, ⟨[], by rw [List.append_nil], by rw [List.append_nil]⟩, rfl⟩

/-- The pass state `componentFinish` hands to its recursive call: unmount
closures stored, animation channel drained. -/
def cfPre (id : WidgetId) (out : ProcOut) (couts : List CallbackOut)
    (st : PassSt) : PassSt :=
  let st :=
    if out.unmount.isEmpty then st
    else { st with unmount_closures := insertAL st.unmount_closures id out.unmount }
  { st with animators := (applyAnimUpdates id st.animators
      (out.anim_updates ++ couts.foldl (fun a c => a ++ c.anim_updates) [])) }

theorem cfPre_used (id : WidgetId) (out : ProcOut) (couts : List CallbackOut)
    (st : PassSt) : (cfPre id out couts st).used_ids = st.used_ids := by
  unfold cfPre
  split <;> rfl

theorem cfPre_mount (id : WidgetId) (out : ProcOut) (couts : List CallbackOut)
    (st : PassSt) : (cfPre id out couts st).mount_log = st.mount_log := by
  unfold cfPre
  split <;> rfl

theorem componentFinish_used_mem (S1 : List (WidgetId × Props))
    (rec : WidgetNode → List String → String → Option Props → PassSt →
      WidgetNode × PassSt)
    (hw : ∀ n p k sh s, WalkInv S1 s (rec n p k sh s).2)
    (id : WidgetId) (path1 : List String) (pk : String) (out : ProcOut)
    (couts : List CallbackOut) (stC : PassSt)
    (hmem : stC.used_ids.contains id = true) :
    (componentFinish rec id path1 pk out couts stC).2.used_ids.contains id
      = true := by
  have h1 : (componentFinish rec id path1 pk out couts stC).2.used_ids
      = (rec out.node path1 pk (some out.shared_props)
          (cfPre id out couts stC)).2.used_ids := rfl
  obtain ⟨Δ, hΔ⟩ :=
    (hw out.node path1 pk (some out.shared_props) (cfPre id out couts stC)).used_mono
  rw [h1]
  exact contains_mono (by rw [hΔ, cfPre_used]) hmem

theorem parallel_component_pair (S1 S2 : List (WidgetId × Props))
    (rec1 rec2 : WidgetNode → List String → String → Option Props → PassSt →
      WidgetNode × PassSt)
    (id : WidgetId) (path1 : List String) (pk : String)
    (out1 out2 : ProcOut) (couts1 couts2 : List CallbackOut)
    (st1 st2 stC1 stC2 : PassSt)
    (hout : out2 = out1)
    (hu1 : stC1.used_ids = st1.used_ids ++ [id])
    (hu2 : stC2.used_ids = st2.used_ids ++ [id])
    (hm2 : stC2.mount_log = st2.mount_log)
    (hrec : ∀ n p k sh s1 s2,
      (∀ i, (rec1 n p k sh s1).2.used_ids.contains i = true → agreeAt S1 S2 i) →
      ParOut s1 s2 (rec1 n p k sh s1) (rec2 n p k sh s2))
    (hag : ∀ i,
      (componentFinish rec1 id path1 pk out1 couts1 stC1).2.used_ids.contains i
        = true → agreeAt S1 S2 i) :
    ParOut st1 st2 (componentFinish rec1 id path1 pk out1 couts1 stC1)
      (componentFinish rec2 id path1 pk out2 couts2 stC2) := by
  rw [hout]
  have hinner := hrec out1.node path1 pk (some out1.shared_props)
    (cfPre id out1 couts1 stC1) (cfPre id out1 couts2 stC2)
    (fun i hi => hag i hi)
  obtain ⟨hnode, ⟨Δ, hΔ1, hΔ2⟩, hmnt⟩ := hinner
  refine ⟨hnode, ⟨[id] ++ Δ, ?_, ?_⟩, ?_⟩
  · have h : (componentFinish rec1 id path1 pk out1 couts1 stC1).2.used_ids
        = (cfPre id out1 couts1 stC1).used_ids ++ Δ := hΔ1
    rw [h, cfPre_used, hu1, List.append_assoc]
  · have h : (componentFinish rec2 id path1 pk out1 couts2 stC2).2.used_ids
        = (cfPre id out1 couts2 stC2).used_ids ++ Δ := hΔ2
    rw [h, cfPre_used, hu2, List.append_assoc]
  · have h : (componentFinish rec2 id path1 pk out1 couts2 stC2).2.mount_log
        = (cfPre id out1 couts2 stC2).mount_log := hmnt
    rw [h, cfPre_mount, hm2]

theorem parallel_walkItems {A : Type} (S1 S2 : List (WidgetId × Props))
    (getSlot : A → WidgetNode) (reb : A → WidgetNode → A)
    (f1 f2 : WidgetNode → String → PassSt → WidgetNode × PassSt)
    (hw : ∀ n k s, WalkInv S1 s (f1 n k s).2)
    (hf : ∀ n k s1 s2,
      (∀ i, (f1 n k s1).2.used_ids.contains i = true → agreeAt S1 S2 i) →
      ParOut s1 s2 (f1 n k s1) (f2 n k s2)) :
    ∀ (l : List (Nat × A)) (st1 st2 : PassSt),
      (∀ i, (walkItems getSlot reb f1 l st1).2.used_ids.contains i = true →
        agreeAt S1 S2 i) →
      (walkItems getSlot reb f2 l st2).1 = (walkItems getSlot reb f1 l st1).1 ∧
      (∃ Δ, (walkItems getSlot reb f1 l st1).2.used_ids = st1.used_ids ++ Δ ∧
        (walkItems getSlot reb f2 l st2).2.used_ids = st2.used_ids ++ Δ) ∧
      (walkItems getSlot reb f2 l st2).2.mount_log = st2.mount_log := by
  intro l
  induction l with
  | nil =>
    intro st1 st2 _
    exact ⟨rfl, ⟨[], by simp [walkItems], by simp [walkItems]⟩, rfl⟩
  | cons e rest ih =>
    intro st1 st2 hag
    simp only [walkItems] at hag ⊢
    have hagHead : ∀ i,
        (f1 (getSlot e.2) ("<" ++ toString e.1 ++ ">") st1).2.used_ids.contains i
          = true → agreeAt S1 S2 i := by
      intro i hi
      apply hag i
      obtain ⟨Δr, hΔr⟩ := (walkInv_walkItems S1 getSlot reb f1 hw rest
        (f1 (getSlot e.2) ("<" ++ toString e.1 ++ ">") st1).2).used_mono
      exact contains_mono hΔr hi
    have hhead := hf (getSlot e.2) ("<" ++ toString e.1 ++ ">") st1 st2 hagHead
    have htail := ih (f1 (getSlot e.2) ("<" ++ toString e.1 ++ ">") st1).2
      (f2 (getSlot e.2) ("<" ++ toString e.1 ++ ">") st2).2 hag
    obtain ⟨hn, ⟨Δa, hA1, hA2⟩, hm⟩ := hhead
    obtain ⟨hln, ⟨Δb, hB1, hB2⟩, hlm⟩ := htail
    refine ⟨?_, ⟨Δa ++ Δb, ?_, ?_⟩, ?_⟩
    · rw [hln, hn]
    · rw [hB1, hA1, List.append_assoc]
    · rw [hB2, hA2, List.append_assoc]
    · rw [hlm, hm]

theorem processNode_parallel (env : Env)
    (hAnim : ∀ i ctx a, env.procs i ctx = env.procs i { ctx with animator := a })
    (S1 S2 : List (WidgetId × Props)) :
    ∀ (fuel : Nat) (node : WidgetNode) (path : List String) (pk : String)
      (sh : Option Props) (st1 st2 : PassSt),
      (∀ i, (processNode env fuel S1 node path pk sh st1).2.used_ids.contains i
          = true → agreeAt S1 S2 i) →
      ParOut st1 st2 (processNode env fuel S1 node path pk sh st1)
        (processNode env fuel S2 node path pk sh st2) := by
  intro fuel
  induction fuel with
  | zero =>
    intro node path pk sh st1 st2 _
    exact parOut_id node st1 st2
  | succ fuel ih =>
    intro node path pk sh st1 st2 hag
    match node with
    | .wnone => exact parOut_id _ st1 st2
    | .tuple ns => exact parOut_id _ st1 st2
    | .unit u =>
      match u with
      | .nnone => exact parOut_id _ st1 st2
      | .imageBox i => exact parOut_id _ st1 st2
      | .textBox i t => exact parOut_id _ st1 st2
      | .areaBox i slot =>
        simp only [processNode] at hag ⊢
        have h := ih slot path "." sh st1 st2 hag
        exact ⟨by rw [h.node_eq], h.used, h.mounts⟩
      | .sizeBox i slot =>
        simp only [processNode] at hag ⊢
        have h := ih slot path "." sh st1 st2 hag
        exact ⟨by rw [h.node_eq], h.used, h.mounts⟩
      | .portalBox i owner pslot =>
        simp only [processNode] at hag ⊢
        have h := ih (portalSlotNodeNode pslot) path "." sh st1 st2 hag
        refine ⟨?_, h.used, h.mounts⟩
        cases pslot <;> simp [h.node_eq]
      | .contentBox i items =>
        simp only [processNode] at hag ⊢
        have h := parallel_walkItems S1 S2 ContentBoxItemNode.slot
          (fun it u => ContentBoxItemNode.mk u it.layout)
          (fun n k s => processNode env fuel S1 n path k sh s)
          (fun n k s => processNode env fuel S2 n path k sh s)
          (fun n k s => processNode_walkInv env fuel S1 n path k sh s)
          (fun n k s1 s2 hh => ih n path k sh s1 s2 hh) items.enum st1 st2 hag
        exact ⟨by rw [h.1], h.2.1, h.2.2⟩
      | .flexBox i items =>
        simp only [processNode] at hag ⊢
        have h := parallel_walkItems S1 S2 FlexBoxItemNode.slot
          (fun it u => FlexBoxItemNode.mk u it.layout)
          (fun n k s => processNode env fuel S1 n path k sh s)
          (fun n k s => processNode env fuel S2 n path k sh s)
          (fun n k s => processNode_walkInv env fuel S1 n path k sh s)
          (fun n k s1 s2 hh => ih n path k sh s1 s2 hh) items.enum st1 st2 hag
        exact ⟨by rw [h.1], h.2.1, h.2.2⟩
      | .gridBox i items =>
        simp only [processNode] at hag ⊢
        have h := parallel_walkItems S1 S2 GridBoxItemNode.slot
          (fun it u => GridBoxItemNode.mk u it.layout)
          (fun n k s => processNode env fuel S1 n path k sh s)
          (fun n k s => processNode env fuel S2 n path k sh s)
          (fun n k s => processNode_walkInv env fuel S1 n path k sh s)
          (fun n k s1 s2 hh => ih n path k sh s1 s2 hh) items.enum st1 st2 hag
        exact ⟨by rw [h.1], h.2.1, h.2.2⟩
    | .component c =>
      match c with
      | .mk proc tn key props shared listed named =>
        simp only [processNode] at hag ⊢
        cases heq : lookupAL S1 (⟨tn, path ++ [key.getD pk]⟩ : WidgetId) with
        | some state =>
          rw [heq] at hag
          have hagid : agreeAt S1 S2 ⟨tn, path ++ [key.getD pk]⟩ :=
            hag _ (componentFinish_used_mem S1 _
              (fun n p k sh2 s => processNode_walkInv env fuel S1 n p k sh2 s)
              _ _ _ _ _ _ (by simp [applyCallbackMsgs]))
          have hS2 : lookupAL S2 (⟨tn, path ++ [key.getD pk]⟩ : WidgetId)
              = some state := by
            have h : lookupAL S2 (⟨tn, path ++ [key.getD pk]⟩ : WidgetId)
                = some ((lookupAL S1
                    (⟨tn, path ++ [key.getD pk]⟩ : WidgetId)).getD defaultProps) :=
              hagid
            rw [heq] at h
            exact h
          rw [hS2]
          refine parallel_component_pair S1 S2 _ _ _ _ _ _ _ _ _ st1 st2 _ _
            (hAnim _ _ _) rfl rfl rfl
            (fun n p k sh2 s1 s2 hh => ih n p k sh2 s1 s2 hh) hag
        | none =>
          rw [heq] at hag
          have hagid : agreeAt S1 S2 ⟨tn, path ++ [key.getD pk]⟩ :=
            hag _ (componentFinish_used_mem S1 _
              (fun n p k sh2 s => processNode_walkInv env fuel S1 n p k sh2 s)
              _ _ _ _ _ _ (by simp [applyCallbackMsgs]))
          have hS2 : lookupAL S2 (⟨tn, path ++ [key.getD pk]⟩ : WidgetId)
              = some defaultProps := by
            have h : lookupAL S2 (⟨tn, path ++ [key.getD pk]⟩ : WidgetId)
                = some ((lookupAL S1
                    (⟨tn, path ++ [key.getD pk]⟩ : WidgetId)).getD defaultProps) :=
              hagid
            rw [heq] at h
            exact h
          rw [hS2]
          refine parallel_component_pair S1 S2 _ _ _ _ _ _ _ _ _ st1 st2 _ _
            (hAnim _ _ _) rfl rfl rfl
            (fun n p k sh2 s1 s2 hh => ih n p k sh2 s1 s2 hh) hag

/-- A life-cycle callback that emits nothing. -/
def emptyCb : CallbackOut := ⟨[], [], [], []⟩

/-- A processor whose expansion depends on its state: with the default
(empty) state it expands to a child keyed "x" and stages a state update;
with any other state it expands to a child keyed "y". -/
def procStateDep : ProcFn := fun ctx =>
  if ctx.state = [] then
    ⟨.component (.mk 1 "b" (some "x") [] none [] []), ctx.props, ctx.shared_props,
      [], [], [], [[("s", 1)]], []⟩
  else
    ⟨.component (.mk 1 "b" (some "y") [] none [] []), ctx.props, ctx.shared_props,
      [], [], [], [], []⟩

/-- A leaf processor registering a mount callback. -/
def procLeafMount : ProcFn := fun ctx =>
  ⟨.wnone, ctx.props, ctx.shared_props, [fun _ => emptyCb], [], [], [], []⟩

/-- Environment of the two processors above. -/
def envC9 : Env :=
  ⟨fun i => if i = 0 then procStateDep else procLeafMount, fun _ a => (a, [])⟩

/-- Fixture: a fixed declarative tree rooted at the state-dependent
composite. -/
def appC9 : App := { newApp with
  tree := .component (.mk 0 "a" (some "r") [] none [] []) }

/-- Counterexample to the consequence in claim C9: processing the same fixed
tree twice with no external changes between the passes (the second pass is
triggered by the state update the first pass staged) mounts a fresh identity
on the second pass and yields a different identity set: the staged state
changes the state-dependent expansion from child key "x" to child key
"y". -/
theorem claim9_counterexample :
    (processWithContext envC9 10
        (processWithContext envC9 10 appC9).1).1.mount_log ≠ [] ∧
    (processWithContext envC9 10
        (processWithContext envC9 10 appC9).1).1.used_ids ≠
      (processWithContext envC9 10 appC9).1.used_ids :=
  ⟨by decide, by decide⟩

/-- Claim C9 amended: the per-node dichotomy (stored state reused without
mounting, absent state defaulted and recorded with mount callbacks) holds
per pass, but two-pass stability additionally requires that the first pass
staged no state updates and that processors do not read their animation
state; under those conditions a forced second pass over the unchanged tree
visits exactly the same identities in the same order, fires zero mount
callbacks, and reconciles to the same expanded tree. -/
theorem claim9_two_pass_stability (env : Env) (fuel : Nat) (app : App)
    (hAnim : ∀ i ctx a, env.procs i ctx = env.procs i { ctx with animator := a })
    (hrun : passRuns app = true)
    (hsc : (processWithContext env fuel app).1.state_changes = []) :
    (processWithContext env fuel
        (markDirty (processWithContext env fuel app).1)).1.used_ids
      = (processWithContext env fuel app).1.used_ids ∧
    (processWithContext env fuel
        (markDirty (processWithContext env fuel app).1)).1.mount_log = [] ∧
    (processWithContext env fuel
        (markDirty (processWithContext env fuel app).1)).1.walk_result
      = (processWithContext env fuel app).1.walk_result := by
  have happ1 := processWithContext_app_eq env fuel app hrun
  have hrun2 : passRuns (markDirty (processWithContext env fuel app).1) = true := by
    simp [passRuns, markDirty]
  have happ2 := processWithContext_app_eq env fuel
    (markDirty (processWithContext env fuel app).1) hrun2
  have htree : (markDirty (processWithContext env fuel app).1).tree = app.tree := by
    have h := congrArg App.tree happ1
    exact h
  have hS2states : mergedStates (markDirty (processWithContext env fuel app).1)
      = (passPrune env fuel app).states := by
    have hchg : (markDirty (processWithContext env fuel app).1).state_changes
        = [] := hsc
    have h1 : mergedStates (markDirty (processWithContext env fuel app).1)
        = unionAL (markDirty (processWithContext env fuel app).1).states
            (markDirty (processWithContext env fuel app).1).state_changes := rfl
    rw [h1, hchg]
    have h2 : unionAL (markDirty (processWithContext env fuel app).1).states []
        = (markDirty (processWithContext env fuel app).1).states := rfl
    rw [h2, happ1]
    rfl
  have hinv : WalkInv (mergedStates app) (passInitSt env app)
      (passWalk env fuel app).2 :=
    processNode_walkInv env fuel (mergedStates app) app.tree [] "<*>"
      none (passInitSt env app)
  have hagree : ∀ i, (processNode env fuel (mergedStates app) app.tree [] "<*>"
        none (passInitSt env app)).2.used_ids.contains i = true →
      agreeAt (mergedStates app)
        (mergedStates (markDirty (processWithContext env fuel app).1)) i := by
    intro i hi
    have hi' : (passWalk env fuel app).2.used_ids.contains i = true := hi
    have hpr : lookupAL (passPrune env fuel app).states i =
        lookupAL (unionAL (mergedStates app) (passWalk env fuel app).2.new_states)
          i := by
      have h := pruneFold_used_lookup
        (unionAL (mergedStates app) (passWalk env fuel app).2.new_states)
        (passWalk env fuel app).2.used_ids i hi'
        ⟨[], (passWalk env fuel app).2.animators,
          (passWalk env fuel app).2.unmount_closures,
          (passWalk env fuel app).2.sent_messages,
          (passWalk env fuel app).2.sent_signals, []⟩
      simpa [lookupAL, Option.orElse] using h
    have hnd : ((passWalk env fuel app).2.new_states.map Prod.fst).Nodup :=
      hinv.ns_nodup (by simp [passInitSt])
    show lookupAL (mergedStates (markDirty (processWithContext env fuel app).1)) i
        = some ((lookupAL (mergedStates app) i).getD defaultProps)
    rw [hS2states]
    have hpp : passPrune env fuel app =
        (unionAL (mergedStates app) (passWalk env fuel app).2.new_states).foldl
          (pruneStep (passWalk env fuel app).2.used_ids)
          ⟨[], (passWalk env fuel app).2.animators,
            (passWalk env fuel app).2.unmount_closures,
            (passWalk env fuel app).2.sent_messages,
            (passWalk env fuel app).2.sent_signals, []⟩ := rfl
    cases hS1 : lookupAL (mergedStates app) i with
    | some v =>
      have hns : lookupAL (passWalk env fuel app).2.new_states i = none := by
        cases hx : lookupAL (passWalk env fuel app).2.new_states i with
        | none => rfl
        | some p =>
          rcases hinv.ns_disjoint i (by simp [hx]) with h0 | h0
          · simp [passInitSt, lookupAL] at h0
          · rw [hS1] at h0
            cases h0
      rw [hpr, unionAL_lookup_overlay_none _ _ _ hns, hS1]
      rfl
    | none =>
      rcases hinv.coverage i hi' with h0 | h0 | h0
      · simp [passInitSt] at h0
      · rw [hS1] at h0
        simp at h0
      · obtain ⟨p, hp⟩ := Option.isSome_iff_exists.mp h0
        rcases hinv.ns_lookup i p hp with h1 | ⟨h1, _⟩
        · simp [passInitSt, lookupAL] at h1
        · subst h1
          rw [hpr, lookupAL_unionAL_nodup _ _ _ hnd, hp, hS1]
          rfl
  have hpar := processNode_parallel env hAnim (mergedStates app)
    (mergedStates (markDirty (processWithContext env fuel app).1)) fuel app.tree
    [] "<*>" none (passInitSt env app)
    (passInitSt env (markDirty (processWithContext env fuel app).1)) hagree
  have hwalk2 : passWalk env fuel (markDirty (processWithContext env fuel app).1)
      = processNode env fuel
          (mergedStates (markDirty (processWithContext env fuel app).1)) app.tree
          [] "<*>" none
          (passInitSt env (markDirty (processWithContext env fuel app).1)) := by
    unfold passWalk
    rw [htree]
  obtain ⟨hnode, ⟨Δ, hΔ1, hΔ2⟩, hmnt⟩ := hpar
  have hw1 : passWalk env fuel app = processNode env fuel (mergedStates app)
      app.tree [] "<*>" none (passInitSt env app) := rfl
  have ha1u : (processWithContext env fuel app).1.used_ids
      = (passWalk env fuel app).2.used_ids := by
    have h := congrArg App.used_ids happ1
    exact h
  have ha2u : (processWithContext env fuel
        (markDirty (processWithContext env fuel app).1)).1.used_ids
      = (passWalk env fuel
          (markDirty (processWithContext env fuel app).1)).2.used_ids := by
    have h := congrArg App.used_ids happ2
    exact h
  have ha2m : (processWithContext env fuel
        (markDirty (processWithContext env fuel app).1)).1.mount_log
      = (passWalk env fuel
          (markDirty (processWithContext env fuel app).1)).2.mount_log := by
    have h := congrArg App.mount_log happ2
    exact h
  have ha1w : (processWithContext env fuel app).1.walk_result
      = (passWalk env fuel app).1 := by
    have h := congrArg App.walk_result happ1
    exact h
  have ha2w : (processWithContext env fuel
        (markDirty (processWithContext env fuel app).1)).1.walk_result
      = (passWalk env fuel
          (markDirty (processWithContext env fuel app).1)).1 := by
    have h := congrArg App.walk_result happ2
    exact h
  refine ⟨?_, ?_, ?_⟩
  · rw [ha2u, ha1u, hwalk2, hw1, hΔ2, hΔ1]
    rfl
  · rw [ha2m, hwalk2, hmnt]
    rfl
  · rw [ha2w, ha1w, hwalk2, hw1, hnode]

/-- Fixture: the trivial component tree under the trivial environment. -/
def appTwoPass : App := { newApp with tree := treeW }

/-- Witness for the amended C9 at a concrete input: a forced second pass
over the unchanged trivial tree reuses the identity set, mounts nothing and
reconciles to the same tree. -/
theorem claim9_witness :
    (processWithContext envTrivial 2
        (markDirty (processWithContext envTrivial 2 appTwoPass).1)).1.used_ids
      = (processWithContext envTrivial 2 appTwoPass).1.used_ids ∧
    (processWithContext envTrivial 2
        (markDirty (processWithContext envTrivial 2 appTwoPass).1)).1.mount_log
      = [] ∧
    (processWithContext envTrivial 2
        (markDirty (processWithContext envTrivial 2 appTwoPass).1)).1.walk_result
      = (processWithContext envTrivial 2 appTwoPass).1.walk_result :=
  claim9_two_pass_stability envTrivial 2 appTwoPass (fun _ _ _ => rfl) rfl rfl
